import Mathlib

set_option maxRecDepth 16384

/-!
Verification of the binlog event decoders in
`pymysqlreplication/event.py` (python-mysql-replication).

The per-event decoders of `event.py` are shallowly embedded as Lean
functions over an explicit byte-cursor state (`Packet`).  Bytes are
modelled as `Nat` (with `% 256` or `b < 256` hypotheses where the
Python `bytes` type guarantees byte range), fallible reads return
`Except PyErr`.
-/

/-- Python-level failures raised (or raisable) by the decoding paths. -/
inductive PyErr where
  | underrun
  | statusVariableMismatch
  | typeError
  | structError
  | indexError
  | unicodeDecodeError
  | invalidRewind
deriving Repr, DecidableEq

/-- Modelled from the spec: the Byte Cursor of §4.1 (the `packet`
object of `packet.py`, which is not part of the sources under
verification).  `data` is the whole received packet (byte 0 is the
protocol marker byte, bytes 1..19 the 19-byte event header, byte 20
onward the event body), `pos` the current read offset, and
`read_bytes` the running count of bytes consumed by `read`/`advance`
(a separate mutable counter: `_verify_event` adjusts it directly). -/
structure Packet where
  data : List Nat
  pos : Nat
  read_bytes : Nat
deriving Repr, DecidableEq

/-- `l[i:i+n]` as a list slice. -/
def byteSlice (l : List Nat) (i n : Nat) : List Nat := (l.drop i).take n

/-- `l[i]` with default 0 (reads in the claims are guarded by length
hypotheses, so the default is never observed there). -/
def byteAt (l : List Nat) (i : Nat) : Nat := l.getD i 0

/-- Little-endian value of a byte list (`struct.unpack` with `<`). -/
def leNat (bs : List Nat) : Nat := bs.foldr (fun b acc => b + 256 * acc) 0

/-- Big-endian value of a byte list (`int.from_bytes(_, "big")`). -/
def beNat (bs : List Nat) : Nat := bs.foldl (fun acc b => acc * 256 + b) 0

/-- `int.to_bytes(n, byteorder="little")`. -/
def toLEBytes (n v : Nat) : List Nat := (List.range n).map fun i => v / 256 ^ i % 256

/-- Reinterpret an unsigned 32-bit value as signed (`struct.unpack(">i", _)`). -/
def toSigned32 (u : Nat) : Int := if u < 2 ^ 31 then (u : Int) else (u : Int) - 2 ^ 32

/-- Reinterpret an unsigned 64-bit value as signed (`struct.unpack("<q", _)`). -/
def toSigned64 (u : Nat) : Int := if u < 2 ^ 63 then (u : Int) else (u : Int) - 2 ^ 64

/-- Modelled from the spec: `read_exact(n)` of the Byte Cursor.
Returns the next `n` bytes and advances both the offset and the
consumed-bytes counter; Underrun if fewer than `n` bytes remain. -/
def Packet.read (p : Packet) (n : Nat) : Except PyErr (List Nat × Packet) :=
  if p.pos + n ≤ p.data.length then
    .ok (byteSlice p.data p.pos n,
         { p with pos := p.pos + n, read_bytes := p.read_bytes + n })
  else .error .underrun

/-- Modelled from the spec: `skip(n)` of the Byte Cursor (the
wrapper's `advance`, which also counts skipped bytes as consumed). -/
def Packet.advance (p : Packet) (n : Nat) : Except PyErr Packet :=
  if p.pos + n ≤ p.data.length then
    .ok { p with pos := p.pos + n, read_bytes := p.read_bytes + n }
  else .error .underrun

/-- Modelled from the spec: `rewind` of the Byte Cursor — an absolute
seek of the read offset that leaves the `read_bytes` counter alone
(`_verify_event` compensates the counter by hand); seeking forward
past the current offset is an InvalidRewind failure. -/
def Packet.rewind (p : Packet) (position : Nat) : Except PyErr Packet :=
  if position ≤ p.pos then .ok { p with pos := position }
  else .error .invalidRewind

/-- Modelled from the spec: `read_u8` of the Byte Cursor. -/
def Packet.read_uint8 (p : Packet) : Except PyErr (Nat × Packet) :=
  match p.read 1 with
  | .ok (bs, p') => .ok (bs.headD 0, p')
  | .error e => .error e

/-- Modelled from the spec: `read_u16_le` of the Byte Cursor. -/
def Packet.read_uint16 (p : Packet) : Except PyErr (Nat × Packet) :=
  match p.read 2 with
  | .ok (bs, p') => .ok (leNat bs, p')
  | .error e => .error e

/-- Modelled from the spec: `read_u24_le` of the Byte Cursor. -/
def Packet.read_uint24 (p : Packet) : Except PyErr (Nat × Packet) :=
  match p.read 3 with
  | .ok (bs, p') => .ok (leNat bs, p')
  | .error e => .error e

/-- Modelled from the spec: `read_u32_le` of the Byte Cursor. -/
def Packet.read_uint32 (p : Packet) : Except PyErr (Nat × Packet) :=
  match p.read 4 with
  | .ok (bs, p') => .ok (leNat bs, p')
  | .error e => .error e

/-- Modelled from the spec: `read_u64_le` of the Byte Cursor. -/
def Packet.read_uint64 (p : Packet) : Except PyErr (Nat × Packet) :=
  match p.read 8 with
  | .ok (bs, p') => .ok (leNat bs, p')
  | .error e => .error e

/-- Modelled from the spec: `read_cstring_until_null_or_n` of the Byte
Cursor — read up to and including the next NUL byte, returning the
bytes before it; Underrun when no NUL remains. -/
def Packet.read_string (p : Packet) : Except PyErr (List Nat × Packet) :=
  if (p.data.drop p.pos).findIdx (fun b => b == 0) < (p.data.drop p.pos).length then
    .ok ((p.data.drop p.pos).take ((p.data.drop p.pos).findIdx (fun b => b == 0)),
         { p with
             pos := p.pos + (p.data.drop p.pos).findIdx (fun b => b == 0) + 1,
             read_bytes := p.read_bytes + (p.data.drop p.pos).findIdx (fun b => b == 0) + 1 })
  else .error .underrun

/-- Python tuple comparison `mysql_version >= (5, 7)` on a 3-tuple. -/
def versionGe57 (v : Nat × Nat × Nat) : Bool :=
  decide (5 < v.1 ∨ (v.1 = 5 ∧ 7 ≤ v.2.1))

/-- Result of `GtidEvent.__init__` (the fields it assigns from the body). -/
structure GtidEvent where
  commit_flag : Bool
  sid : List Nat
  gno : Nat
  lt_type : Nat
  logical_clock : Option (Nat × Nat)
deriving Repr, DecidableEq

/-- Body decode of `GtidEvent.__init__`: 1-byte commit flag
(`struct.unpack("!B", _)[0] == 1`), 16-byte `sid`, 8-byte
little-endian `gno`, 1-byte `lt_type`, then — only when
`mysql_version >= (5, 7)` — 8-byte little-endian `last_committed`
and `sequence_number`. -/
def GtidEvent.init (version : Nat × Nat × Nat) (p : Packet) :
    Except PyErr (GtidEvent × Packet) := do
  let (cf, p) ← p.read 1
  let commit_flag := cf.headD 0 == 1
  let (sid, p) ← p.read 16
  let (gnoB, p) ← p.read 8
  let gno := leNat gnoB
  let (ltB, p) ← p.read 1
  let lt_type := ltB.headD 0
  if versionGe57 version then do
    let (lcB, p) ← p.read 8
    let (snB, p) ← p.read 8
    pure (⟨commit_flag, sid, gno, lt_type, some (leNat lcB, leNat snB)⟩, p)
  else
    pure (⟨commit_flag, sid, gno, lt_type, none⟩, p)

theorem Packet.read_ok (p : Packet) (n : Nat) (h : p.pos + n ≤ p.data.length) :
    p.read n = .ok (byteSlice p.data p.pos n,
      { p with pos := p.pos + n, read_bytes := p.read_bytes + n }) := by
  simp [Packet.read, h]

theorem byteSlice_one (l : List Nat) (i : Nat) (h : i < l.length) :
    byteSlice l i 1 = [byteAt l i] := by
  unfold byteSlice byteAt
  rcases hd : l.drop i with _ | ⟨a, t⟩
  · have := List.length_drop i l
    simp [hd] at this
    omega
  · have h1 : (l.drop i)[0]? = some a := by simp [hd]
    rw [List.getElem?_drop] at h1
    simp only [Nat.add_zero] at h1
    simp [hd, List.getD, h1]

/-- C1. MySQL GTID event decoding reads, in order with nothing in
between, a 1-byte commit flag (true iff the byte is 1), 16 raw bytes
of source UUID and an 8-byte little-endian group number; the two
additional 8-byte little-endian fields `last_committed` and
`sequence_number` are read and present exactly when the server
version is at least (5, 7). -/
theorem gtid_event_layout (version : Nat × Nat × Nat) (p : Packet)
    (hlen : p.pos + 42 ≤ p.data.length) :
    GtidEvent.init version p =
      .ok (⟨byteAt p.data p.pos == 1,
            byteSlice p.data (p.pos + 1) 16,
            leNat (byteSlice p.data (p.pos + 17) 8),
            byteAt p.data (p.pos + 25),
            if versionGe57 version then
              some (leNat (byteSlice p.data (p.pos + 26) 8),
                    leNat (byteSlice p.data (p.pos + 34) 8))
            else none⟩,
          { p with
              pos := p.pos + (if versionGe57 version then 42 else 26),
              read_bytes := p.read_bytes + (if versionGe57 version then 42 else 26) }) := by
  unfold GtidEvent.init
  rw [Packet.read_ok p 1 (by omega)]
  rw [byteSlice_one p.data p.pos (by omega)]
  simp only [bind, Except.bind, List.headD]
  rw [Packet.read_ok _ 16 (by simp; omega)]
  simp only
  rw [Packet.read_ok _ 8 (by simp; omega)]
  simp only
  rw [Packet.read_ok _ 1 (by simp; omega)]
  rw [show byteSlice p.data (p.pos + 1 + 16 + 8) 1 = [byteAt p.data (p.pos + 25)] by
    rw [show p.pos + 1 + 16 + 8 = p.pos + 25 by omega]
    exact byteSlice_one p.data (p.pos + 25) (by omega)]
  simp only [List.headD]
  have E17 : ∀ x : Nat, x + 1 + 16 = x + 17 := fun x => by omega
  have E25 : ∀ x : Nat, x + 17 + 8 = x + 25 := fun x => by omega
  have E26 : ∀ x : Nat, x + 25 + 1 = x + 26 := fun x => by omega
  have E34 : ∀ x : Nat, x + 26 + 8 = x + 34 := fun x => by omega
  have E42 : ∀ x : Nat, x + 34 + 8 = x + 42 := fun x => by omega
  by_cases hv : versionGe57 version
  · simp only [hv, if_true]
    rw [E17 p.pos, E25 p.pos, E26 p.pos]
    rw [Packet.read_ok _ 8 (by simp; omega)]
    simp only
    rw [Packet.read_ok _ 8 (by simp; omega)]
    simp only [pure, Except.pure]
  · simp only [hv, Bool.false_eq_true, if_false]
    rw [E17 p.pos, E25 p.pos, E26 p.pos]
    simp only [pure, Except.pure]

/-- Witness for C1 at a concrete 42-byte body with version (5, 7, 44). -/
theorem gtid_event_layout_witness :
    GtidEvent.init (5, 7, 44) ⟨List.replicate 42 0, 0, 0⟩ =
      .ok (⟨byteAt (List.replicate 42 0) 0 == 1,
            byteSlice (List.replicate 42 0) 1 16,
            leNat (byteSlice (List.replicate 42 0) 17 8),
            byteAt (List.replicate 42 0) 25,
            if versionGe57 (5, 7, 44) then
              some (leNat (byteSlice (List.replicate 42 0) 26 8),
                    leNat (byteSlice (List.replicate 42 0) 34 8))
            else none⟩,
          ⟨List.replicate 42 0,
           0 + (if versionGe57 (5, 7, 44) then 42 else 26),
           0 + (if versionGe57 (5, 7, 44) then 42 else 26)⟩) :=
  gtid_event_layout (5, 7, 44) ⟨List.replicate 42 0, 0, 0⟩ (by simp)

theorem Packet.rewind_ok (p : Packet) (n : Nat) (h : n ≤ p.pos) :
    p.rewind n = .ok { p with pos := n } := by
  simp [Packet.rewind, h]

/-- One bit step of the reflected CRC-32 with polynomial 0xEDB88320. -/
def crcStep (x : Nat) : Nat := if x % 2 = 1 then (x / 2) ^^^ 0xEDB88320 else x / 2

/-- One byte step of CRC-32. -/
def crc32Byte (crc b : Nat) : Nat := crcStep^[8] (crc ^^^ (b % 256))

/-- Modelled from the spec: `zlib.crc32` — the standard reflected
CRC-32 (init 0xFFFFFFFF, polynomial 0xEDB88320, final complement),
an external library function used by `BinLogEvent._verify_event`. -/
def crc32 (data : List Nat) : Nat := (data.foldl crc32Byte 0xFFFFFFFF) ^^^ 0xFFFFFFFF

/-- `BinLogEvent._verify_event`: when verification is off, return at
once with the flag left in its initial `None` state; otherwise seek
to offset 1, read the 19-byte header plus `event_size`-byte body,
read the 4-byte footer, compare the little-endian CRC-32 bytes with
the footer, record the boolean, then undo the consumed-bytes count
and seek back to offset 20 (the start of the event body). -/
def BinLogEvent.verify_event (verify_checksum : Bool) (event_size : Nat) (p : Packet) :
    Except PyErr (Option Bool × Packet) :=
  if verify_checksum = false then .ok (none, p)
  else do
    let p ← p.rewind 1
    let (data, p) ← p.read (19 + event_size)
    let (footer, p) ← p.read 4
    let byte_data := toLEBytes 4 (crc32 data)
    let valid := byte_data == footer
    let p := { p with read_bytes := p.read_bytes - (19 + event_size + 4) }
    let p ← p.rewind 20
    pure (some valid, p)

theorem verify_event_true_spec (es : Nat) (p : Packet)
    (hpos : 1 ≤ p.pos) (hlen : 24 + es ≤ p.data.length) :
    BinLogEvent.verify_event true es p =
      .ok (some (toLEBytes 4 (crc32 (byteSlice p.data 1 (19 + es))) ==
                   byteSlice p.data (20 + es) 4),
           { p with pos := 20 }) := by
  unfold BinLogEvent.verify_event
  rw [if_neg (by simp)]
  rw [Packet.rewind_ok p 1 hpos]
  simp only [bind, Except.bind]
  rw [Packet.read_ok _ (19 + es) (by simp; omega)]
  simp only
  rw [Packet.read_ok _ 4 (by simp; omega)]
  simp only
  rw [Packet.rewind_ok _ 20 (by simp; omega)]
  simp only [pure, Except.pure]
  rw [show (1 : Nat) + (19 + es) = 20 + es by omega]
  rw [show p.read_bytes + (19 + es) + 4 - (19 + es + 4) = p.read_bytes by omega]

/-- C4. With verification enabled the decoder records, without
failing, `some` of the comparison of the little-endian CRC-32 bytes
of the 19-byte header plus body (footer excluded) against the 4-byte
footer; with verification disabled the flag stays in the third,
not-checked state `none`. -/
theorem verify_event_tri_state (es : Nat) (p : Packet)
    (hpos : 1 ≤ p.pos) (hlen : 24 + es ≤ p.data.length) :
    BinLogEvent.verify_event true es p =
      .ok (some (toLEBytes 4 (crc32 (byteSlice p.data 1 (19 + es))) ==
                   byteSlice p.data (20 + es) 4),
           { p with pos := 20 }) ∧
    BinLogEvent.verify_event false es p = .ok (none, p) :=
  ⟨verify_event_true_spec es p hpos hlen, rfl⟩

/-- Witness for C4 on a concrete 24-byte packet. -/
theorem verify_event_tri_state_witness :
    BinLogEvent.verify_event true 0 ⟨List.replicate 24 0, 20, 20⟩ =
      .ok (some (toLEBytes 4 (crc32 (byteSlice (List.replicate 24 0) 1 19)) ==
                   byteSlice (List.replicate 24 0) 20 4),
           ⟨List.replicate 24 0, 20, 20⟩) ∧
    BinLogEvent.verify_event false 0 ⟨List.replicate 24 0, 20, 20⟩ =
      .ok (none, ⟨List.replicate 24 0, 20, 20⟩) :=
  verify_event_tri_state 0 ⟨List.replicate 24 0, 20, 20⟩ (by simp) (by simp)

/-- C10. The checksum-verification step is cursor-neutral: entered at
the start of the event body (offset 20), it returns the packet state
exactly as it was at entry — same data, same offset, same
consumed-bytes counter — so subsequent field decoding is identical
to a decode with verification disabled. -/
theorem verify_event_frame (es : Nat) (p : Packet)
    (hpos : p.pos = 20) (hlen : 24 + es ≤ p.data.length) :
    ∃ b, BinLogEvent.verify_event true es p = .ok (some b, p) := by
  have h := verify_event_true_spec es p (by omega) hlen
  have hp : { p with pos := 20 } = p := by
    cases p
    simp_all
  rw [hp] at h
  exact ⟨_, h⟩

/-- Witness for C10 on a concrete 24-byte packet. -/
theorem verify_event_frame_witness :
    ∃ b, BinLogEvent.verify_event true 0 ⟨List.replicate 24 7, 20, 55⟩ =
      .ok (some b, ⟨List.replicate 24 7, 20, 55⟩) :=
  verify_event_frame 0 ⟨List.replicate 24 7, 20, 55⟩ (by simp) (by simp)

/-- Modelled from the spec: key code `Q_FLAGS2_CODE` of the constants
module `STATUS_VAR_KEY` (not under the verified sources); the values
of all these key codes follow the inline comments of
`QueryEvent._read_status_vars_value_for_key`. -/
def Q_FLAGS2_CODE : Nat := 0x00

/-- Modelled from the spec: key code (see `Q_FLAGS2_CODE`). -/
def Q_SQL_MODE_CODE : Nat := 0x01

/-- Modelled from the spec: key code (see `Q_FLAGS2_CODE`). -/
def Q_CATALOG_CODE : Nat := 0x02

/-- Modelled from the spec: key code (see `Q_FLAGS2_CODE`). -/
def Q_AUTO_INCREMENT : Nat := 0x03

/-- Modelled from the spec: key code (see `Q_FLAGS2_CODE`). -/
def Q_CHARSET_CODE : Nat := 0x04

/-- Modelled from the spec: key code (see `Q_FLAGS2_CODE`). -/
def Q_TIME_ZONE_CODE : Nat := 0x05

/-- Modelled from the spec: key code (see `Q_FLAGS2_CODE`). -/
def Q_CATALOG_NZ_CODE : Nat := 0x06

/-- Modelled from the spec: key code (see `Q_FLAGS2_CODE`). -/
def Q_LC_TIME_NAMES_CODE : Nat := 0x07

/-- Modelled from the spec: key code (see `Q_FLAGS2_CODE`). -/
def Q_CHARSET_DATABASE_CODE : Nat := 0x08

/-- Modelled from the spec: key code (see `Q_FLAGS2_CODE`). -/
def Q_TABLE_MAP_FOR_UPDATE_CODE : Nat := 0x09

/-- Modelled from the spec: key code (see `Q_FLAGS2_CODE`). -/
def Q_MASTER_DATA_WRITTEN_CODE : Nat := 0x0A

/-- Modelled from the spec: key code (see `Q_FLAGS2_CODE`). -/
def Q_INVOKER : Nat := 0x0B

/-- Modelled from the spec: key code (see `Q_FLAGS2_CODE`). -/
def Q_UPDATED_DB_NAMES : Nat := 0x0C

/-- Modelled from the spec: key code (see `Q_FLAGS2_CODE`). -/
def Q_MICROSECONDS : Nat := 0x0D

/-- Modelled from the spec: key code (see `Q_FLAGS2_CODE`). -/
def Q_COMMIT_TS : Nat := 0x0E

/-- Modelled from the spec: key code (see `Q_FLAGS2_CODE`). -/
def Q_COMMIT_TS2 : Nat := 0x0F

/-- Modelled from the spec: key code (see `Q_FLAGS2_CODE`). -/
def Q_EXPLICIT_DEFAULTS_FOR_TIMESTAMP : Nat := 0x10

/-- Modelled from the spec: key code (see `Q_FLAGS2_CODE`). -/
def Q_DDL_LOGGED_WITH_XID : Nat := 0x11

/-- Modelled from the spec: key code (see `Q_FLAGS2_CODE`). -/
def Q_DEFAULT_COLLATION_FOR_UTF8MB4 : Nat := 0x12

/-- Modelled from the spec: key code (see `Q_FLAGS2_CODE`). -/
def Q_SQL_REQUIRE_PRIMARY_KEY : Nat := 0x13

/-- Modelled from the spec: key code (see `Q_FLAGS2_CODE`). -/
def Q_DEFAULT_TABLE_ENCRYPTION : Nat := 0x14

/-- Modelled from the spec: MariaDB key code of the constants module. -/
def Q_HRNOW : Nat := 128

/-- Modelled from the spec: MariaDB key code of the constants module. -/
def Q_XID : Nat := 129

/-- The closed set of status-variable keys handled by
`QueryEvent._read_status_vars_value_for_key`. -/
def statusVarKeys : List Nat :=
  [Q_FLAGS2_CODE, Q_SQL_MODE_CODE, Q_CATALOG_CODE, Q_AUTO_INCREMENT,
   Q_CHARSET_CODE, Q_TIME_ZONE_CODE, Q_CATALOG_NZ_CODE, Q_LC_TIME_NAMES_CODE,
   Q_CHARSET_DATABASE_CODE, Q_TABLE_MAP_FOR_UPDATE_CODE,
   Q_MASTER_DATA_WRITTEN_CODE, Q_INVOKER, Q_UPDATED_DB_NAMES, Q_MICROSECONDS,
   Q_COMMIT_TS, Q_COMMIT_TS2, Q_EXPLICIT_DEFAULTS_FOR_TIMESTAMP,
   Q_DDL_LOGGED_WITH_XID, Q_DEFAULT_COLLATION_FOR_UTF8MB4,
   Q_SQL_REQUIRE_PRIMARY_KEY, Q_DEFAULT_TABLE_ENCRYPTION, Q_HRNOW, Q_XID]

/-- The optional status-variable fields a `QueryEvent` may acquire:
each is absent unless its key appeared in the status-variable block. -/
structure QueryVars where
  flags2 : Option Nat
  sql_mode : Option Nat
  auto_increment_increment : Option Nat
  auto_increment_offset : Option Nat
  character_set_client : Option Nat
  collation_connection : Option Nat
  collation_server : Option Nat
  time_zone : Option (List Nat)
  catalog_nz_code : Option (List Nat)
  lc_time_names_number : Option Nat
  charset_database_number : Option Nat
  table_map_for_update : Option Nat
  user : Option (List Nat)
  host : Option (List Nat)
  mts_accessed_db_names : Option (List (List Nat))
  microseconds : Option Nat
  explicit_defaults_ts : Option Nat
  ddl_xid : Option Nat
  default_collation_for_utf8mb4_number : Option Nat
  sql_require_primary_key : Option Nat
  default_table_encryption : Option Nat
  hrnow : Option Nat
  xid : Option Nat
deriving Repr, DecidableEq

/-- All status-variable fields absent (the state before the block). -/
def emptyVars : QueryVars :=
  ⟨none, none, none, none, none, none, none, none, none, none, none, none,
   none, none, none, none, none, none, none, none, none, none, none⟩

/-- The `for i in range(mts_accessed_dbs): dbs.append(self.packet.read_string())`
loop of the `Q_UPDATED_DB_NAMES` branch. -/
def readNStrings : Nat → Packet → Except PyErr (List (List Nat) × Packet)
  | 0, p => .ok ([], p)
  | n + 1, p =>
    match p.read_string with
    | .error e => .error e
    | .ok (db, p1) =>
      match readNStrings n p1 with
      | .error e => .error e
      | .ok (dbs, p2) => .ok (db :: dbs, p2)

/-- `QueryEvent._read_status_vars_value_for_key`: the one-byte key was
already consumed by the caller; decode the value whose shape is fixed
by the key, or raise `StatusVariableMismatch` for a key outside the
enumerated set. -/
def QueryEvent.read_status_vars_value_for_key (key : Nat) (p : Packet) (v : QueryVars) :
    Except PyErr (Packet × QueryVars) :=
  if key = Q_FLAGS2_CODE then
    match p.read_uint32 with
    | .error e => .error e
    | .ok (x, p1) => .ok (p1, { v with flags2 := some x })
  else if key = Q_SQL_MODE_CODE then
    match p.read_uint64 with
    | .error e => .error e
    | .ok (x, p1) => .ok (p1, { v with sql_mode := some x })
  else if key = Q_CATALOG_CODE then
    .ok (p, v)
  else if key = Q_AUTO_INCREMENT then
    match p.read_uint16 with
    | .error e => .error e
    | .ok (a, p1) =>
      match p1.read_uint16 with
      | .error e => .error e
      | .ok (b, p2) =>
        .ok (p2, { v with auto_increment_increment := some a,
                          auto_increment_offset := some b })
  else if key = Q_CHARSET_CODE then
    match p.read_uint16 with
    | .error e => .error e
    | .ok (a, p1) =>
      match p1.read_uint16 with
      | .error e => .error e
      | .ok (b, p2) =>
        match p2.read_uint16 with
        | .error e => .error e
        | .ok (c, p3) =>
          .ok (p3, { v with character_set_client := some a,
                            collation_connection := some b,
                            collation_server := some c })
  else if key = Q_TIME_ZONE_CODE then
    match p.read_uint8 with
    | .error e => .error e
    | .ok (n, p1) =>
      if n ≠ 0 then
        match p1.read n with
        | .error e => .error e
        | .ok (tz, p2) => .ok (p2, { v with time_zone := some tz })
      else .ok (p1, v)
  else if key = Q_CATALOG_NZ_CODE then
    match p.read_uint8 with
    | .error e => .error e
    | .ok (n, p1) =>
      if n ≠ 0 then
        match p1.read n with
        | .error e => .error e
        | .ok (c, p2) => .ok (p2, { v with catalog_nz_code := some c })
      else .ok (p1, v)
  else if key = Q_LC_TIME_NAMES_CODE then
    match p.read_uint16 with
    | .error e => .error e
    | .ok (x, p1) => .ok (p1, { v with lc_time_names_number := some x })
  else if key = Q_CHARSET_DATABASE_CODE then
    match p.read_uint16 with
    | .error e => .error e
    | .ok (x, p1) => .ok (p1, { v with charset_database_number := some x })
  else if key = Q_TABLE_MAP_FOR_UPDATE_CODE then
    match p.read_uint64 with
    | .error e => .error e
    | .ok (x, p1) => .ok (p1, { v with table_map_for_update := some x })
  else if key = Q_MASTER_DATA_WRITTEN_CODE then
    .ok (p, v)
  else if key = Q_INVOKER then
    match p.read_uint8 with
    | .error e => .error e
    | .ok (ul, p1) =>
      if ul ≠ 0 then
        match p1.read ul with
        | .error e => .error e
        | .ok (u, p2) =>
          match p2.read_uint8 with
          | .error e => .error e
          | .ok (hl, p3) =>
            if hl ≠ 0 then
              match p3.read hl with
              | .error e => .error e
              | .ok (hb, p4) => .ok (p4, { v with user := some u, host := some hb })
            else .ok (p3, { v with user := some u })
      else
        match p1.read_uint8 with
        | .error e => .error e
        | .ok (hl, p3) =>
          if hl ≠ 0 then
            match p3.read hl with
            | .error e => .error e
            | .ok (hb, p4) => .ok (p4, { v with host := some hb })
          else .ok (p3, v)
  else if key = Q_UPDATED_DB_NAMES then
    match p.read_uint8 with
    | .error e => .error e
    | .ok (c, p1) =>
      if c = 254 then .ok (p1, v)
      else
        match readNStrings c p1 with
        | .error e => .error e
        | .ok (dbs, p2) => .ok (p2, { v with mts_accessed_db_names := some dbs })
  else if key = Q_MICROSECONDS then
    match p.read_uint24 with
    | .error e => .error e
    | .ok (x, p1) => .ok (p1, { v with microseconds := some x })
  else if key = Q_COMMIT_TS then
    .ok (p, v)
  else if key = Q_COMMIT_TS2 then
    .ok (p, v)
  else if key = Q_EXPLICIT_DEFAULTS_FOR_TIMESTAMP then
    match p.read_uint8 with
    | .error e => .error e
    | .ok (x, p1) => .ok (p1, { v with explicit_defaults_ts := some x })
  else if key = Q_DDL_LOGGED_WITH_XID then
    match p.read_uint64 with
    | .error e => .error e
    | .ok (x, p1) => .ok (p1, { v with ddl_xid := some x })
  else if key = Q_DEFAULT_COLLATION_FOR_UTF8MB4 then
    match p.read_uint16 with
    | .error e => .error e
    | .ok (x, p1) => .ok (p1, { v with default_collation_for_utf8mb4_number := some x })
  else if key = Q_SQL_REQUIRE_PRIMARY_KEY then
    match p.read_uint8 with
    | .error e => .error e
    | .ok (x, p1) => .ok (p1, { v with sql_require_primary_key := some x })
  else if key = Q_DEFAULT_TABLE_ENCRYPTION then
    match p.read_uint8 with
    | .error e => .error e
    | .ok (x, p1) => .ok (p1, { v with default_table_encryption := some x })
  else if key = Q_HRNOW then
    match p.read_uint24 with
    | .error e => .error e
    | .ok (x, p1) => .ok (p1, { v with hrnow := some x })
  else if key = Q_XID then
    match p.read_uint64 with
    | .error e => .error e
    | .ok (x, p1) => .ok (p1, { v with xid := some x })
  else .error .statusVariableMismatch

/-- Cursor evolution along a successful decode step: same underlying
buffer, a non-decreasing consumed-bytes counter, and the offset moving
in lockstep with the counter. -/
def StepsFrom (p p' : Packet) : Prop :=
  p'.data = p.data ∧ p.read_bytes ≤ p'.read_bytes ∧
    p'.pos + p.read_bytes = p.pos + p'.read_bytes

theorem stepsFrom_refl (p : Packet) : StepsFrom p p := ⟨rfl, le_refl _, by omega⟩

theorem stepsFrom_trans {p q r : Packet} (h1 : StepsFrom p q) (h2 : StepsFrom q r) :
    StepsFrom p r := by
  obtain ⟨d1, l1, e1⟩ := h1
  obtain ⟨d2, l2, e2⟩ := h2
  exact ⟨d2.trans d1, le_trans l1 l2, by omega⟩

theorem read_stepsFrom {p : Packet} {n : Nat} {bs : List Nat} {p' : Packet}
    (h : p.read n = .ok (bs, p')) : StepsFrom p p' := by
  unfold Packet.read at h
  split at h
  · injection h with h'
    injection h' with h1 h2
    subst h2
    refine ⟨rfl, ?_, ?_⟩ <;> simp_arith
  · exact Except.noConfusion h

theorem read_read_bytes {p : Packet} {n : Nat} {bs : List Nat} {p' : Packet}
    (h : p.read n = .ok (bs, p')) : p'.read_bytes = p.read_bytes + n := by
  unfold Packet.read at h
  split at h
  · injection h with h'
    injection h' with h1 h2
    subst h2
    rfl
  · exact Except.noConfusion h

theorem read_uint8_stepsFrom {p : Packet} {x : Nat} {p' : Packet}
    (h : p.read_uint8 = .ok (x, p')) : StepsFrom p p' := by
  unfold Packet.read_uint8 at h
  split at h
  · injection h with h'
    injection h' with h1 h2
    subst h2
    solve_by_elim [read_stepsFrom]
  · exact Except.noConfusion h

theorem read_uint8_read_bytes {p : Packet} {x : Nat} {p' : Packet}
    (h : p.read_uint8 = .ok (x, p')) : p'.read_bytes = p.read_bytes + 1 := by
  unfold Packet.read_uint8 at h
  split at h
  · injection h with h'
    injection h' with h1 h2
    subst h2
    solve_by_elim [read_read_bytes]
  · exact Except.noConfusion h

theorem read_uint16_stepsFrom {p : Packet} {x : Nat} {p' : Packet}
    (h : p.read_uint16 = .ok (x, p')) : StepsFrom p p' := by
  unfold Packet.read_uint16 at h
  split at h
  · injection h with h'
    injection h' with h1 h2
    subst h2
    solve_by_elim [read_stepsFrom]
  · exact Except.noConfusion h

theorem read_uint24_stepsFrom {p : Packet} {x : Nat} {p' : Packet}
    (h : p.read_uint24 = .ok (x, p')) : StepsFrom p p' := by
  unfold Packet.read_uint24 at h
  split at h
  · injection h with h'
    injection h' with h1 h2
    subst h2
    solve_by_elim [read_stepsFrom]
  · exact Except.noConfusion h

theorem read_uint32_stepsFrom {p : Packet} {x : Nat} {p' : Packet}
    (h : p.read_uint32 = .ok (x, p')) : StepsFrom p p' := by
  unfold Packet.read_uint32 at h
  split at h
  · injection h with h'
    injection h' with h1 h2
    subst h2
    solve_by_elim [read_stepsFrom]
  · exact Except.noConfusion h

theorem read_uint64_stepsFrom {p : Packet} {x : Nat} {p' : Packet}
    (h : p.read_uint64 = .ok (x, p')) : StepsFrom p p' := by
  unfold Packet.read_uint64 at h
  split at h
  · injection h with h'
    injection h' with h1 h2
    subst h2
    solve_by_elim [read_stepsFrom]
  · exact Except.noConfusion h

theorem read_string_stepsFrom {p : Packet} {bs : List Nat} {p' : Packet}
    (h : p.read_string = .ok (bs, p')) : StepsFrom p p' := by
  unfold Packet.read_string at h
  split at h
  · injection h with h'
    injection h' with h1 h2
    subst h2
    refine ⟨rfl, ?_, ?_⟩ <;> simp_arith
  · exact Except.noConfusion h

theorem read_string_read_bytes {p : Packet} {bs : List Nat} {p' : Packet}
    (h : p.read_string = .ok (bs, p')) :
    p'.read_bytes = p.read_bytes + bs.length + 1 := by
  unfold Packet.read_string at h
  split at h
  · rename_i hi
    injection h with h'
    injection h' with h1 h2
    subst h2
    subst h1
    simp only [List.length_take]
    omega
  · exact Except.noConfusion h

theorem readNStrings_stepsFrom :
    ∀ (n : Nat) (p : Packet) (dbs : List (List Nat)) (p' : Packet),
      readNStrings n p = .ok (dbs, p') → StepsFrom p p' := by
  intro n
  induction n with
  | zero =>
    intro p dbs p' h
    unfold readNStrings at h
    injection h with h'
    injection h' with h1 h2
    subst h2
    exact stepsFrom_refl p
  | succ n ih =>
    intro p dbs p' h
    unfold readNStrings at h
    cases hs : p.read_string with
    | error e => rw [hs] at h; exact Except.noConfusion h
    | ok r =>
      obtain ⟨db, p1⟩ := r
      rw [hs] at h
      simp only at h
      cases hns : readNStrings n p1 with
      | error e => rw [hns] at h; exact Except.noConfusion h
      | ok r2 =>
        obtain ⟨dbs1, p2⟩ := r2
        rw [hns] at h
        simp only at h
        injection h with h'
        injection h' with h1 h2
        subst h2
        exact stepsFrom_trans (read_string_stepsFrom hs) (ih p1 dbs1 p2 hns)

theorem readNStrings_spec :
    ∀ (n : Nat) (p : Packet) (dbs : List (List Nat)) (p' : Packet),
      readNStrings n p = .ok (dbs, p') →
      dbs.length = n ∧
        p'.read_bytes = p.read_bytes + (dbs.map (fun d => d.length + 1)).sum := by
  intro n
  induction n with
  | zero =>
    intro p dbs p' h
    unfold readNStrings at h
    injection h with h'
    injection h' with h1 h2
    subst h2
    subst h1
    simp
  | succ n ih =>
    intro p dbs p' h
    unfold readNStrings at h
    cases hs : p.read_string with
    | error e => rw [hs] at h; exact Except.noConfusion h
    | ok r =>
      obtain ⟨db, p1⟩ := r
      rw [hs] at h
      simp only at h
      cases hns : readNStrings n p1 with
      | error e => rw [hns] at h; exact Except.noConfusion h
      | ok r2 =>
        obtain ⟨dbs1, p2⟩ := r2
        rw [hns] at h
        simp only at h
        injection h with h'
        injection h' with h1 h2
        subst h2
        subst h1
        obtain ⟨hl, hb⟩ := ih p1 dbs1 p2 hns
        have hb1 := read_string_read_bytes hs
        constructor
        · simp [hl]
        · simp only [List.map_cons, List.sum_cons]
          omega


theorem read_status_vars_stepsFrom (key : Nat) (p : Packet) (v : QueryVars)
    (p' : Packet) (v' : QueryVars)
    (h : QueryEvent.read_status_vars_value_for_key key p v = .ok (p', v')) :
    StepsFrom p p' := by
  unfold QueryEvent.read_status_vars_value_for_key at h
  by_cases hk0 : key = Q_FLAGS2_CODE
  · rw [if_pos hk0] at h
    cases hr1 : p.read_uint32 with
    | error e => rw [hr1] at h; exact Except.noConfusion h
    | ok r1 =>
      obtain ⟨x1, q1⟩ := r1
      rw [hr1] at h
      simp only at h
      injection h with hh
      injection hh with hp hv
      subst hp
      exact read_uint32_stepsFrom hr1
  · rw [if_neg hk0] at h
    by_cases hk1 : key = Q_SQL_MODE_CODE
    · rw [if_pos hk1] at h
      cases hr1 : p.read_uint64 with
      | error e => rw [hr1] at h; exact Except.noConfusion h
      | ok r1 =>
        obtain ⟨x1, q1⟩ := r1
        rw [hr1] at h
        simp only at h
        injection h with hh
        injection hh with hp hv
        subst hp
        exact read_uint64_stepsFrom hr1
    · rw [if_neg hk1] at h
      by_cases hk2 : key = Q_CATALOG_CODE
      · rw [if_pos hk2] at h
        injection h with hh
        injection hh with hp hv
        subst hp
        exact stepsFrom_refl p
      · rw [if_neg hk2] at h
        by_cases hk3 : key = Q_AUTO_INCREMENT
        · rw [if_pos hk3] at h
          cases hr1 : p.read_uint16 with
          | error e => rw [hr1] at h; exact Except.noConfusion h
          | ok r1 =>
            obtain ⟨x1, q1⟩ := r1
            rw [hr1] at h
            simp only at h
            cases hr2 : q1.read_uint16 with
            | error e => rw [hr2] at h; exact Except.noConfusion h
            | ok r2 =>
              obtain ⟨x2, q2⟩ := r2
              rw [hr2] at h
              simp only at h
              injection h with hh
              injection hh with hp hv
              subst hp
              exact stepsFrom_trans (read_uint16_stepsFrom hr1) (read_uint16_stepsFrom hr2)
        · rw [if_neg hk3] at h
          by_cases hk4 : key = Q_CHARSET_CODE
          · rw [if_pos hk4] at h
            cases hr1 : p.read_uint16 with
            | error e => rw [hr1] at h; exact Except.noConfusion h
            | ok r1 =>
              obtain ⟨x1, q1⟩ := r1
              rw [hr1] at h
              simp only at h
              cases hr2 : q1.read_uint16 with
              | error e => rw [hr2] at h; exact Except.noConfusion h
              | ok r2 =>
                obtain ⟨x2, q2⟩ := r2
                rw [hr2] at h
                simp only at h
                cases hr3 : q2.read_uint16 with
                | error e => rw [hr3] at h; exact Except.noConfusion h
                | ok r3 =>
                  obtain ⟨x3, q3⟩ := r3
                  rw [hr3] at h
                  simp only at h
                  injection h with hh
                  injection hh with hp hv
                  subst hp
                  exact stepsFrom_trans (stepsFrom_trans (read_uint16_stepsFrom hr1) (read_uint16_stepsFrom hr2)) (read_uint16_stepsFrom hr3)
          · rw [if_neg hk4] at h
            by_cases hk5 : key = Q_TIME_ZONE_CODE
            · rw [if_pos hk5] at h
              cases hr1 : p.read_uint8 with
              | error e => rw [hr1] at h; exact Except.noConfusion h
              | ok r1 =>
                obtain ⟨x1, q1⟩ := r1
                rw [hr1] at h
                simp only at h
                by_cases hn : x1 ≠ 0
                · rw [if_pos hn] at h
                  cases hr2 : q1.read x1 with
                  | error e => rw [hr2] at h; exact Except.noConfusion h
                  | ok r2 =>
                    obtain ⟨bs2, q2⟩ := r2
                    rw [hr2] at h
                    simp only at h
                    injection h with hh
                    injection hh with hp hv
                    subst hp
                    exact stepsFrom_trans (read_uint8_stepsFrom hr1) (read_stepsFrom hr2)
                · rw [if_neg hn] at h
                  injection h with hh
                  injection hh with hp hv
                  subst hp
                  exact read_uint8_stepsFrom hr1
            · rw [if_neg hk5] at h
              by_cases hk6 : key = Q_CATALOG_NZ_CODE
              · rw [if_pos hk6] at h
                cases hr1 : p.read_uint8 with
                | error e => rw [hr1] at h; exact Except.noConfusion h
                | ok r1 =>
                  obtain ⟨x1, q1⟩ := r1
                  rw [hr1] at h
                  simp only at h
                  by_cases hn : x1 ≠ 0
                  · rw [if_pos hn] at h
                    cases hr2 : q1.read x1 with
                    | error e => rw [hr2] at h; exact Except.noConfusion h
                    | ok r2 =>
                      obtain ⟨bs2, q2⟩ := r2
                      rw [hr2] at h
                      simp only at h
                      injection h with hh
                      injection hh with hp hv
                      subst hp
                      exact stepsFrom_trans (read_uint8_stepsFrom hr1) (read_stepsFrom hr2)
                  · rw [if_neg hn] at h
                    injection h with hh
                    injection hh with hp hv
                    subst hp
                    exact read_uint8_stepsFrom hr1
              · rw [if_neg hk6] at h
                by_cases hk7 : key = Q_LC_TIME_NAMES_CODE
                · rw [if_pos hk7] at h
                  cases hr1 : p.read_uint16 with
                  | error e => rw [hr1] at h; exact Except.noConfusion h
                  | ok r1 =>
                    obtain ⟨x1, q1⟩ := r1
                    rw [hr1] at h
                    simp only at h
                    injection h with hh
                    injection hh with hp hv
                    subst hp
                    exact read_uint16_stepsFrom hr1
                · rw [if_neg hk7] at h
                  by_cases hk8 : key = Q_CHARSET_DATABASE_CODE
                  · rw [if_pos hk8] at h
                    cases hr1 : p.read_uint16 with
                    | error e => rw [hr1] at h; exact Except.noConfusion h
                    | ok r1 =>
                      obtain ⟨x1, q1⟩ := r1
                      rw [hr1] at h
                      simp only at h
                      injection h with hh
                      injection hh with hp hv
                      subst hp
                      exact read_uint16_stepsFrom hr1
                  · rw [if_neg hk8] at h
                    by_cases hk9 : key = Q_TABLE_MAP_FOR_UPDATE_CODE
                    · rw [if_pos hk9] at h
                      cases hr1 : p.read_uint64 with
                      | error e => rw [hr1] at h; exact Except.noConfusion h
                      | ok r1 =>
                        obtain ⟨x1, q1⟩ := r1
                        rw [hr1] at h
                        simp only at h
                        injection h with hh
                        injection hh with hp hv
                        subst hp
                        exact read_uint64_stepsFrom hr1
                    · rw [if_neg hk9] at h
                      by_cases hk10 : key = Q_MASTER_DATA_WRITTEN_CODE
                      · rw [if_pos hk10] at h
                        injection h with hh
                        injection hh with hp hv
                        subst hp
                        exact stepsFrom_refl p
                      · rw [if_neg hk10] at h
                        by_cases hk11 : key = Q_INVOKER
                        · rw [if_pos hk11] at h
                          cases hr1 : p.read_uint8 with
                          | error e => rw [hr1] at h; exact Except.noConfusion h
                          | ok r1 =>
                            obtain ⟨ul1, q1⟩ := r1
                            rw [hr1] at h
                            simp only at h
                            by_cases hul : ul1 ≠ 0
                            · rw [if_pos hul] at h
                              cases hr2 : q1.read ul1 with
                              | error e => rw [hr2] at h; exact Except.noConfusion h
                              | ok r2 =>
                                obtain ⟨ub2, q2⟩ := r2
                                rw [hr2] at h
                                simp only at h
                                cases hr8 : q2.read_uint8 with
                                | error e => rw [hr8] at h; exact Except.noConfusion h
                                | ok r8 =>
                                  obtain ⟨hl8, q8⟩ := r8
                                  rw [hr8] at h
                                  simp only at h
                                  by_cases hhl : hl8 ≠ 0
                                  · rw [if_pos hhl] at h
                                    cases hr9 : q8.read hl8 with
                                    | error e => rw [hr9] at h; exact Except.noConfusion h
                                    | ok r9 =>
                                      obtain ⟨hb9, q9⟩ := r9
                                      rw [hr9] at h
                                      simp only at h
                                      injection h with hh
                                      injection hh with hp hv
                                      subst hp
                                      exact stepsFrom_trans (stepsFrom_trans (stepsFrom_trans (read_uint8_stepsFrom hr1) (read_stepsFrom hr2)) (read_uint8_stepsFrom hr8)) (read_stepsFrom hr9)
                                  · rw [if_neg hhl] at h
                                    injection h with hh
                                    injection hh with hp hv
                                    subst hp
                                    exact stepsFrom_trans (stepsFrom_trans (read_uint8_stepsFrom hr1) (read_stepsFrom hr2)) (read_uint8_stepsFrom hr8)
                            · rw [if_neg hul] at h
                              cases hr8 : q1.read_uint8 with
                              | error e => rw [hr8] at h; exact Except.noConfusion h
                              | ok r8 =>
                                obtain ⟨hl8, q8⟩ := r8
                                rw [hr8] at h
                                simp only at h
                                by_cases hhl : hl8 ≠ 0
                                · rw [if_pos hhl] at h
                                  cases hr9 : q8.read hl8 with
                                  | error e => rw [hr9] at h; exact Except.noConfusion h
                                  | ok r9 =>
                                    obtain ⟨hb9, q9⟩ := r9
                                    rw [hr9] at h
                                    simp only at h
                                    injection h with hh
                                    injection hh with hp hv
                                    subst hp
                                    exact stepsFrom_trans (stepsFrom_trans (read_uint8_stepsFrom hr1) (read_uint8_stepsFrom hr8)) (read_stepsFrom hr9)
                                · rw [if_neg hhl] at h
                                  injection h with hh
                                  injection hh with hp hv
                                  subst hp
                                  exact stepsFrom_trans (read_uint8_stepsFrom hr1) (read_uint8_stepsFrom hr8)
                        · rw [if_neg hk11] at h
                          by_cases hk12 : key = Q_UPDATED_DB_NAMES
                          · rw [if_pos hk12] at h
                            cases hr1 : p.read_uint8 with
                            | error e => rw [hr1] at h; exact Except.noConfusion h
                            | ok r1 =>
                              obtain ⟨x1, q1⟩ := r1
                              rw [hr1] at h
                              simp only at h
                              by_cases hc : x1 = 254
                              · rw [if_pos hc] at h
                                injection h with hh
                                injection hh with hp hv
                                subst hp
                                exact read_uint8_stepsFrom hr1
                              · rw [if_neg hc] at h
                                cases hr2 : readNStrings x1 q1 with
                                | error e => rw [hr2] at h; exact Except.noConfusion h
                                | ok r2 =>
                                  obtain ⟨dbs2, q2⟩ := r2
                                  rw [hr2] at h
                                  simp only at h
                                  injection h with hh
                                  injection hh with hp hv
                                  subst hp
                                  exact stepsFrom_trans (read_uint8_stepsFrom hr1) (readNStrings_stepsFrom x1 q1 dbs2 q2 hr2)
                          · rw [if_neg hk12] at h
                            by_cases hk13 : key = Q_MICROSECONDS
                            · rw [if_pos hk13] at h
                              cases hr1 : p.read_uint24 with
                              | error e => rw [hr1] at h; exact Except.noConfusion h
                              | ok r1 =>
                                obtain ⟨x1, q1⟩ := r1
                                rw [hr1] at h
                                simp only at h
                                injection h with hh
                                injection hh with hp hv
                                subst hp
                                exact read_uint24_stepsFrom hr1
                            · rw [if_neg hk13] at h
                              by_cases hk14 : key = Q_COMMIT_TS
                              · rw [if_pos hk14] at h
                                injection h with hh
                                injection hh with hp hv
                                subst hp
                                exact stepsFrom_refl p
                              · rw [if_neg hk14] at h
                                by_cases hk15 : key = Q_COMMIT_TS2
                                · rw [if_pos hk15] at h
                                  injection h with hh
                                  injection hh with hp hv
                                  subst hp
                                  exact stepsFrom_refl p
                                · rw [if_neg hk15] at h
                                  by_cases hk16 : key = Q_EXPLICIT_DEFAULTS_FOR_TIMESTAMP
                                  · rw [if_pos hk16] at h
                                    cases hr1 : p.read_uint8 with
                                    | error e => rw [hr1] at h; exact Except.noConfusion h
                                    | ok r1 =>
                                      obtain ⟨x1, q1⟩ := r1
                                      rw [hr1] at h
                                      simp only at h
                                      injection h with hh
                                      injection hh with hp hv
                                      subst hp
                                      exact read_uint8_stepsFrom hr1
                                  · rw [if_neg hk16] at h
                                    by_cases hk17 : key = Q_DDL_LOGGED_WITH_XID
                                    · rw [if_pos hk17] at h
                                      cases hr1 : p.read_uint64 with
                                      | error e => rw [hr1] at h; exact Except.noConfusion h
                                      | ok r1 =>
                                        obtain ⟨x1, q1⟩ := r1
                                        rw [hr1] at h
                                        simp only at h
                                        injection h with hh
                                        injection hh with hp hv
                                        subst hp
                                        exact read_uint64_stepsFrom hr1
                                    · rw [if_neg hk17] at h
                                      by_cases hk18 : key = Q_DEFAULT_COLLATION_FOR_UTF8MB4
                                      · rw [if_pos hk18] at h
                                        cases hr1 : p.read_uint16 with
                                        | error e => rw [hr1] at h; exact Except.noConfusion h
                                        | ok r1 =>
                                          obtain ⟨x1, q1⟩ := r1
                                          rw [hr1] at h
                                          simp only at h
                                          injection h with hh
                                          injection hh with hp hv
                                          subst hp
                                          exact read_uint16_stepsFrom hr1
                                      · rw [if_neg hk18] at h
                                        by_cases hk19 : key = Q_SQL_REQUIRE_PRIMARY_KEY
                                        · rw [if_pos hk19] at h
                                          cases hr1 : p.read_uint8 with
                                          | error e => rw [hr1] at h; exact Except.noConfusion h
                                          | ok r1 =>
                                            obtain ⟨x1, q1⟩ := r1
                                            rw [hr1] at h
                                            simp only at h
                                            injection h with hh
                                            injection hh with hp hv
                                            subst hp
                                            exact read_uint8_stepsFrom hr1
                                        · rw [if_neg hk19] at h
                                          by_cases hk20 : key = Q_DEFAULT_TABLE_ENCRYPTION
                                          · rw [if_pos hk20] at h
                                            cases hr1 : p.read_uint8 with
                                            | error e => rw [hr1] at h; exact Except.noConfusion h
                                            | ok r1 =>
                                              obtain ⟨x1, q1⟩ := r1
                                              rw [hr1] at h
                                              simp only at h
                                              injection h with hh
                                              injection hh with hp hv
                                              subst hp
                                              exact read_uint8_stepsFrom hr1
                                          · rw [if_neg hk20] at h
                                            by_cases hk21 : key = Q_HRNOW
                                            · rw [if_pos hk21] at h
                                              cases hr1 : p.read_uint24 with
                                              | error e => rw [hr1] at h; exact Except.noConfusion h
                                              | ok r1 =>
                                                obtain ⟨x1, q1⟩ := r1
                                                rw [hr1] at h
                                                simp only at h
                                                injection h with hh
                                                injection hh with hp hv
                                                subst hp
                                                exact read_uint24_stepsFrom hr1
                                            · rw [if_neg hk21] at h
                                              by_cases hk22 : key = Q_XID
                                              · rw [if_pos hk22] at h
                                                cases hr1 : p.read_uint64 with
                                                | error e => rw [hr1] at h; exact Except.noConfusion h
                                                | ok r1 =>
                                                  obtain ⟨x1, q1⟩ := r1
                                                  rw [hr1] at h
                                                  simp only at h
                                                  injection h with hh
                                                  injection hh with hp hv
                                                  subst hp
                                                  exact read_uint64_stepsFrom hr1
                                              · rw [if_neg hk22] at h
                                                exact Except.noConfusion h

/-- The status-variable block loop of `QueryEvent.__init__`:
`while self.packet.read_bytes < status_vars_end_pos:` read a one-byte
key, then decode that key's value. -/
def QueryEvent.status_vars_loop (endPos : Nat) (p : Packet) (v : QueryVars) :
    Except PyErr (Packet × QueryVars) :=
  if hlt : p.read_bytes < endPos then
    match hk : p.read_uint8 with
    | .error e => .error e
    | .ok (key, p1) =>
      match hv2 : QueryEvent.read_status_vars_value_for_key key p1 v with
      | .error e => .error e
      | .ok (p2, v2) => QueryEvent.status_vars_loop endPos p2 v2
  else .ok (p, v)
termination_by endPos - p.read_bytes
decreasing_by
  have h1 := read_uint8_read_bytes hk
  have h2 := (read_status_vars_stepsFrom key p1 v p2 v2 hv2).2.1
  omega

theorem status_vars_loop_exit (endPos : Nat) (p : Packet) (v : QueryVars)
    (h : endPos ≤ p.read_bytes) :
    QueryEvent.status_vars_loop endPos p v = .ok (p, v) := by
  unfold QueryEvent.status_vars_loop
  rw [dif_neg (by omega)]

theorem status_vars_loop_ge_aux (endPos fuel : Nat) :
    ∀ (p : Packet) (v : QueryVars) (p' : Packet) (v' : QueryVars),
      endPos - p.read_bytes ≤ fuel →
      QueryEvent.status_vars_loop endPos p v = .ok (p', v') →
      endPos ≤ p'.read_bytes := by
  induction fuel with
  | zero =>
    intro p v p' v' hf h
    unfold QueryEvent.status_vars_loop at h
    rw [dif_neg (by omega)] at h
    injection h with h'
    injection h' with h1 h2
    subst h1
    omega
  | succ n ih =>
    intro p v p' v' hf h
    unfold QueryEvent.status_vars_loop at h
    by_cases hlt : p.read_bytes < endPos
    · rw [dif_pos hlt] at h
      cases hk : p.read_uint8 with
      | error e => rw [hk] at h; exact Except.noConfusion h
      | ok r =>
        obtain ⟨key, p1⟩ := r
        rw [hk] at h
        simp only at h
        cases hv2 : QueryEvent.read_status_vars_value_for_key key p1 v with
        | error e => rw [hv2] at h; exact Except.noConfusion h
        | ok r2 =>
          obtain ⟨p2, v2⟩ := r2
          rw [hv2] at h
          simp only at h
          have hb1 := read_uint8_read_bytes hk
          have hb2 := (read_status_vars_stepsFrom key p1 v p2 v2 hv2).2.1
          exact ih p2 v2 p' v' (by omega) h
    · rw [dif_neg hlt] at h
      injection h with h'
      injection h' with h1 h2
      subst h1
      omega

theorem status_vars_loop_stepsFrom_aux (endPos fuel : Nat) :
    ∀ (p : Packet) (v : QueryVars) (p' : Packet) (v' : QueryVars),
      endPos - p.read_bytes ≤ fuel →
      QueryEvent.status_vars_loop endPos p v = .ok (p', v') →
      StepsFrom p p' := by
  induction fuel with
  | zero =>
    intro p v p' v' hf h
    unfold QueryEvent.status_vars_loop at h
    rw [dif_neg (by omega)] at h
    injection h with h'
    injection h' with h1 h2
    subst h1
    exact stepsFrom_refl p
  | succ n ih =>
    intro p v p' v' hf h
    unfold QueryEvent.status_vars_loop at h
    by_cases hlt : p.read_bytes < endPos
    · rw [dif_pos hlt] at h
      cases hk : p.read_uint8 with
      | error e => rw [hk] at h; exact Except.noConfusion h
      | ok r =>
        obtain ⟨key, p1⟩ := r
        rw [hk] at h
        simp only at h
        cases hv2 : QueryEvent.read_status_vars_value_for_key key p1 v with
        | error e => rw [hv2] at h; exact Except.noConfusion h
        | ok r2 =>
          obtain ⟨p2, v2⟩ := r2
          rw [hv2] at h
          simp only at h
          have hb1 := read_uint8_read_bytes hk
          have hs1 := read_uint8_stepsFrom hk
          have hs2 := read_status_vars_stepsFrom key p1 v p2 v2 hv2
          have hb2 := hs2.2.1
          exact stepsFrom_trans (stepsFrom_trans hs1 hs2)
            (ih p2 v2 p' v' (by omega) h)
    · rw [dif_neg hlt] at h
      injection h with h'
      injection h' with h1 h2
      subst h1
      exact stepsFrom_refl p

theorem read_status_vars_unknown (k : Nat) (p : Packet) (v : QueryVars)
    (hk : k ∉ statusVarKeys) :
    QueryEvent.read_status_vars_value_for_key k p v =
      .error .statusVariableMismatch := by
  simp only [statusVarKeys, List.mem_cons, List.not_mem_nil, or_false, not_or] at hk
  unfold QueryEvent.read_status_vars_value_for_key
  rw [if_neg hk.1, if_neg hk.2.1, if_neg hk.2.2.1, if_neg hk.2.2.2.1,
      if_neg hk.2.2.2.2.1, if_neg hk.2.2.2.2.2.1, if_neg hk.2.2.2.2.2.2.1,
      if_neg hk.2.2.2.2.2.2.2.1, if_neg hk.2.2.2.2.2.2.2.2.1,
      if_neg hk.2.2.2.2.2.2.2.2.2.1, if_neg hk.2.2.2.2.2.2.2.2.2.2.1,
      if_neg hk.2.2.2.2.2.2.2.2.2.2.2.1, if_neg hk.2.2.2.2.2.2.2.2.2.2.2.2.1,
      if_neg hk.2.2.2.2.2.2.2.2.2.2.2.2.2.1,
      if_neg hk.2.2.2.2.2.2.2.2.2.2.2.2.2.2.1,
      if_neg hk.2.2.2.2.2.2.2.2.2.2.2.2.2.2.2.1,
      if_neg hk.2.2.2.2.2.2.2.2.2.2.2.2.2.2.2.2.1,
      if_neg hk.2.2.2.2.2.2.2.2.2.2.2.2.2.2.2.2.2.1,
      if_neg hk.2.2.2.2.2.2.2.2.2.2.2.2.2.2.2.2.2.2.1,
      if_neg hk.2.2.2.2.2.2.2.2.2.2.2.2.2.2.2.2.2.2.2.1,
      if_neg hk.2.2.2.2.2.2.2.2.2.2.2.2.2.2.2.2.2.2.2.2.1,
      if_neg hk.2.2.2.2.2.2.2.2.2.2.2.2.2.2.2.2.2.2.2.2.2.1,
      if_neg hk.2.2.2.2.2.2.2.2.2.2.2.2.2.2.2.2.2.2.2.2.2.2]

theorem read_uint8_at (p : Packet) (h : p.pos < p.data.length) :
    p.read_uint8 = .ok (byteAt p.data p.pos,
      { p with pos := p.pos + 1, read_bytes := p.read_bytes + 1 }) := by
  unfold Packet.read_uint8
  rw [Packet.read_ok p 1 (by omega)]
  rw [byteSlice_one p.data p.pos h]
  rfl

theorem status_vars_loop_unknown (endPos : Nat) (p : Packet) (v : QueryVars)
    (hlt : p.read_bytes < endPos) (hpos : p.pos < p.data.length)
    (hk : byteAt p.data p.pos ∉ statusVarKeys) :
    QueryEvent.status_vars_loop endPos p v = .error .statusVariableMismatch := by
  unfold QueryEvent.status_vars_loop
  rw [dif_pos hlt]
  rw [read_uint8_at p hpos]
  simp only
  rw [read_status_vars_unknown _ _ _ hk]

/-- C2. The status-variable block loop: a successful pass leaves the
loop only once the consumed-byte counter has reached the declared end
position; when the counter has already reached it, the loop stops at
once reading nothing; and inside the block an unrecognized key byte —
one outside the closed set `statusVarKeys` — makes the decode fail
with the `StatusVariableMismatch` error, with no skip path. -/
theorem query_status_vars_block (endPos : Nat) (p : Packet) (v : QueryVars) :
    (∀ p' v', QueryEvent.status_vars_loop endPos p v = .ok (p', v') →
      endPos ≤ p'.read_bytes) ∧
    (endPos ≤ p.read_bytes →
      QueryEvent.status_vars_loop endPos p v = .ok (p, v)) ∧
    (p.read_bytes < endPos → p.pos < p.data.length →
      byteAt p.data p.pos ∉ statusVarKeys →
      QueryEvent.status_vars_loop endPos p v = .error .statusVariableMismatch) :=
  ⟨fun p' v' h =>
      status_vars_loop_ge_aux endPos (endPos - p.read_bytes) p v p' v' (le_refl _) h,
   fun h => status_vars_loop_exit endPos p v h,
   fun h1 h2 h3 => status_vars_loop_unknown endPos p v h1 h2 h3⟩

/-- Witness for C2: a one-byte block whose key byte 0x20 is outside
the enumerated set fails with `StatusVariableMismatch`. -/
theorem query_status_vars_block_witness :
    QueryEvent.status_vars_loop 1 ⟨[32], 0, 0⟩ emptyVars =
      .error .statusVariableMismatch :=
  (query_status_vars_block 1 ⟨[32], 0, 0⟩ emptyVars).2.2 (by decide) (by decide)
    (by decide)

/-- C9. The `UPDATED_DB_NAMES` status variable: a count byte of 254
ends the key's decode immediately — no byte beyond the count byte is
consumed and the accessed-db-names field is left unset; a count byte
below 254 reads exactly that many NUL-terminated strings, populating
the field with exactly `count` names. -/
theorem updated_db_names_key (p : Packet) (v : QueryVars)
    (hpos : p.pos < p.data.length) :
    (byteAt p.data p.pos = 254 →
      QueryEvent.read_status_vars_value_for_key Q_UPDATED_DB_NAMES p v =
        .ok ({ p with pos := p.pos + 1, read_bytes := p.read_bytes + 1 }, v)) ∧
    (∀ c dbs p2, byteAt p.data p.pos = c → c < 254 →
      readNStrings c { p with pos := p.pos + 1, read_bytes := p.read_bytes + 1 } =
        .ok (dbs, p2) →
      QueryEvent.read_status_vars_value_for_key Q_UPDATED_DB_NAMES p v =
        .ok (p2, { v with mts_accessed_db_names := some dbs }) ∧
      dbs.length = c ∧
      p2.read_bytes = p.read_bytes + 1 + (dbs.map (fun d => d.length + 1)).sum) := by
  constructor
  · intro h254
    unfold QueryEvent.read_status_vars_value_for_key
    rw [if_neg (by decide), if_neg (by decide), if_neg (by decide),
        if_neg (by decide), if_neg (by decide), if_neg (by decide),
        if_neg (by decide), if_neg (by decide), if_neg (by decide),
        if_neg (by decide), if_neg (by decide), if_neg (by decide),
        if_pos rfl]
    rw [read_uint8_at p hpos]
    simp only
    rw [if_pos h254]
  · intro c dbs p2 hc hlt hns
    refine ⟨?_, (readNStrings_spec c _ dbs p2 hns).1, ?_⟩
    · unfold QueryEvent.read_status_vars_value_for_key
      rw [if_neg (by decide), if_neg (by decide), if_neg (by decide),
          if_neg (by decide), if_neg (by decide), if_neg (by decide),
          if_neg (by decide), if_neg (by decide), if_neg (by decide),
          if_neg (by decide), if_neg (by decide), if_neg (by decide),
          if_pos rfl]
      rw [read_uint8_at p hpos]
      simp only
      rw [hc, if_neg (by omega), hns]
    · simpa using (readNStrings_spec c _ dbs p2 hns).2

/-- Witness for C9: count byte 254 consumes exactly one byte and sets
no names. -/
theorem updated_db_names_key_witness :
    QueryEvent.read_status_vars_value_for_key Q_UPDATED_DB_NAMES
        ⟨[254], 0, 0⟩ emptyVars =
      .ok (⟨[254], 1, 1⟩, emptyVars) :=
  (updated_db_names_key ⟨[254], 0, 0⟩ emptyVars (by decide)).1 (by decide)

/-- Lower-case hex digit. -/
def hexDigit (n : Nat) : Char := if n < 10 then Char.ofNat (48 + n) else Char.ofNat (87 + n)

/-- Two lower-case hex digits of a byte. -/
def hexByte (b : Nat) : String := String.mk [hexDigit (b / 16 % 16), hexDigit (b % 16)]

/-- Modelled from the spec: one step of CPython's strict UTF-8
decoder.  Given the head byte and the remaining bytes, return the
decoded code point and how many continuation bytes it consumed, or
`none` for an invalid sequence (overlongs, surrogates and values
beyond U+10FFFF are invalid, as in CPython). -/
def utf8TryDecode (b : Nat) (rest : List Nat) : Option (Char × Nat) :=
  if b < 0x80 then some (Char.ofNat b, 0)
  else if 0xC2 ≤ b ∧ b ≤ 0xDF then
    match rest with
    | c1 :: _ =>
      if 0x80 ≤ c1 ∧ c1 ≤ 0xBF then
        some (Char.ofNat ((b - 0xC0) * 64 + (c1 - 0x80)), 1)
      else none
    | [] => none
  else if 0xE0 ≤ b ∧ b ≤ 0xEF then
    match rest with
    | c1 :: c2 :: _ =>
      if (b = 0xE0 → 0xA0 ≤ c1) ∧ (b = 0xED → c1 ≤ 0x9F) ∧
          0x80 ≤ c1 ∧ c1 ≤ 0xBF ∧ 0x80 ≤ c2 ∧ c2 ≤ 0xBF then
        some (Char.ofNat ((b - 0xE0) * 4096 + (c1 - 0x80) * 64 + (c2 - 0x80)), 2)
      else none
    | _ => none
  else if 0xF0 ≤ b ∧ b ≤ 0xF4 then
    match rest with
    | c1 :: c2 :: c3 :: _ =>
      if (b = 0xF0 → 0x90 ≤ c1) ∧ (b = 0xF4 → c1 ≤ 0x8F) ∧
          0x80 ≤ c1 ∧ c1 ≤ 0xBF ∧ 0x80 ≤ c2 ∧ c2 ≤ 0xBF ∧
          0x80 ≤ c3 ∧ c3 ≤ 0xBF then
        some (Char.ofNat ((b - 0xF0) * 262144 + (c1 - 0x80) * 4096 +
                (c2 - 0x80) * 64 + (c3 - 0x80)), 3)
      else none
    | _ => none
  else none

/-- Modelled from the spec: `bytes.decode("utf-8", errors="backslashreplace")`
— a total text decode: each byte that does not start a valid UTF-8
sequence is rendered as a lower-case `\xNN` escape and decoding
continues with the next byte, so no byte sequence can fail. -/
def decodeBackslash : List Nat → String
  | [] => ""
  | b :: rest =>
    match utf8TryDecode b rest with
    | some (c, k) => c.toString ++ decodeBackslash (rest.drop k)
    | none => "\\x" ++ hexByte b ++ decodeBackslash rest
termination_by l => l.length
decreasing_by
  all_goals simp_arith [List.length_drop]

/-- Recursion core of `strictUtf8Decode`, structurally recursive on a
fuel argument (one unit per decoded code point; the caller supplies
the buffer length, which always suffices since every step consumes at
least one byte, so the fuel-exhaustion branch is unreachable). -/
def strictUtf8DecodeAux : Nat → List Nat → Except PyErr String
  | _, [] => .ok ""
  | 0, _ :: _ => .error .unicodeDecodeError
  | fuel + 1, b :: rest =>
    match utf8TryDecode b rest with
    | some (c, k) =>
      match strictUtf8DecodeAux fuel (rest.drop k) with
      | .ok s => .ok (c.toString ++ s)
      | .error e => .error e
    | none => .error .unicodeDecodeError

/-- Modelled from the spec: `bytes.decode()` — the strict UTF-8 text
decode, failing with `UnicodeDecodeError` on any invalid sequence. -/
def strictUtf8Decode (l : List Nat) : Except PyErr String :=
  strictUtf8DecodeAux l.length l

theorem Packet.advance_ok (p : Packet) (n : Nat) (h : p.pos + n ≤ p.data.length) :
    p.advance n = .ok { p with pos := p.pos + n, read_bytes := p.read_bytes + n } := by
  simp [Packet.advance, h]

theorem read_uint16_at (p : Packet) (h : p.pos + 2 ≤ p.data.length) :
    p.read_uint16 = .ok (leNat (byteSlice p.data p.pos 2),
      { p with pos := p.pos + 2, read_bytes := p.read_bytes + 2 }) := by
  unfold Packet.read_uint16
  rw [Packet.read_ok p 2 h]

theorem read_uint32_at (p : Packet) (h : p.pos + 4 ≤ p.data.length) :
    p.read_uint32 = .ok (leNat (byteSlice p.data p.pos 4),
      { p with pos := p.pos + 4, read_bytes := p.read_bytes + 4 }) := by
  unfold Packet.read_uint32
  rw [Packet.read_ok p 4 h]

/-- Result of `QueryEvent.__init__` (post-header fields, status
variables, schema bytes and permissively decoded query text). -/
structure QueryEvent where
  slave_proxy_id : Nat
  execution_time : Nat
  schema_length : Nat
  error_code : Nat
  status_vars_length : Nat
  status_vars : QueryVars
  schema : List Nat
  query : String
deriving Repr, DecidableEq

/-- Body decode of `QueryEvent.__init__`: u32 `slave_proxy_id`, u32
`execution_time`, u8 `schema_length`, u16 `error_code`, u16
`status_vars_length`, the status-variable loop up to
`read_bytes + status_vars_length`, then `schema_length` bytes of
schema, one skipped byte, and
`event_size - 13 - status_vars_length - schema_length - 1` bytes of
query text decoded with the backslashreplace error handler. -/
def QueryEvent.init (event_size : Nat) (p : Packet) :
    Except PyErr (QueryEvent × Packet) := do
  let (slave_proxy_id, p) ← p.read_uint32
  let (execution_time, p) ← p.read_uint32
  let (slB, p) ← p.read 1
  let schema_length := slB.headD 0
  let (error_code, p) ← p.read_uint16
  let (status_vars_length, p) ← p.read_uint16
  let endPos := p.read_bytes + status_vars_length
  let (p, v) ← QueryEvent.status_vars_loop endPos p emptyVars
  let (schema, p) ← p.read schema_length
  let p ← p.advance 1
  let (qB, p) ← p.read (event_size - 13 - status_vars_length - schema_length - 1)
  pure (⟨slave_proxy_id, execution_time, schema_length, error_code,
         status_vars_length, v, schema, decodeBackslash qB⟩, p)

/-- C5. Query event layout: after the 13-byte post-header (u32 proxy
thread id, u32 execution time, u8 schema length, u16 error code, u16
status-vars length) and a status-variable block consuming exactly the
declared length, the decoder reads `schema_length` bytes of schema,
skips exactly one byte, and reads exactly
`event_size - 13 - status_vars_length - schema_length - 1` bytes of
query text through the total backslashreplace decode. -/
theorem query_event_layout (event_size : Nat) (p : Packet) (sl svl : Nat)
    (p6 : Packet) (v : QueryVars)
    (hsl : byteAt p.data (p.pos + 8) = sl)
    (hsvl : leNat (byteSlice p.data (p.pos + 11) 2) = svl)
    (h13 : p.pos + 13 ≤ p.data.length)
    (hloop : QueryEvent.status_vars_loop (p.read_bytes + 13 + svl)
        { p with pos := p.pos + 13, read_bytes := p.read_bytes + 13 } emptyVars =
      .ok (p6, v))
    (hexact : p6.read_bytes = p.read_bytes + 13 + svl)
    (hes : 14 + svl + sl ≤ event_size)
    (hlen : p.pos + 13 + svl + sl + 1 + (event_size - 14 - svl - sl) ≤
      p.data.length) :
    QueryEvent.init event_size p =
      .ok (⟨leNat (byteSlice p.data p.pos 4),
            leNat (byteSlice p.data (p.pos + 4) 4),
            sl,
            leNat (byteSlice p.data (p.pos + 9) 2),
            svl,
            v,
            byteSlice p.data (p.pos + 13 + svl) sl,
            decodeBackslash (byteSlice p.data (p.pos + 13 + svl + sl + 1)
              (event_size - 14 - svl - sl))⟩,
          { p with
              pos := p.pos + 13 + svl + sl + 1 + (event_size - 14 - svl - sl),
              read_bytes :=
                p.read_bytes + 13 + svl + sl + 1 + (event_size - 14 - svl - sl) }) := by
  unfold QueryEvent.init
  rw [read_uint32_at p (by omega)]
  simp only [bind, Except.bind]
  rw [read_uint32_at _ (by simp; omega)]
  simp only
  rw [Packet.read_ok _ 1 (by simp; omega)]
  rw [show p.pos + 4 + 4 = p.pos + 8 from by omega]
  rw [byteSlice_one p.data (p.pos + 8) (by omega)]
  simp only [List.headD]
  rw [hsl]
  rw [show p.pos + 8 + 1 = p.pos + 9 from by omega]
  rw [read_uint16_at _ (by simp; omega)]
  simp only
  rw [show p.pos + 9 + 2 = p.pos + 11 from by omega]
  rw [read_uint16_at _ (by simp; omega)]
  simp only
  rw [hsvl]
  rw [show p.pos + 11 + 2 = p.pos + 13 from by omega]
  rw [show p.read_bytes + 4 + 4 + 1 + 2 + 2 = p.read_bytes + 13 from by omega]
  rw [hloop]
  simp only
  have hsteps := status_vars_loop_stepsFrom_aux (p.read_bytes + 13 + svl) svl
    { p with pos := p.pos + 13, read_bytes := p.read_bytes + 13 } emptyVars p6 v
    (by simp) hloop
  have hd6 : p6.data = p.data := hsteps.1
  have hp6 : p6.pos = p.pos + 13 + svl := by
    have hlock := hsteps.2.2
    simp only at hlock
    omega
  have hsix : p6 = ⟨p.data, p.pos + 13 + svl, p.read_bytes + 13 + svl⟩ := by
    cases p6
    simp_all
  subst hsix
  rw [Packet.read_ok _ sl (by simp; omega)]
  simp only
  rw [Packet.advance_ok _ 1 (by simp; omega)]
  simp only
  rw [show event_size - 13 - svl - sl - 1 = event_size - 14 - svl - sl from by omega]
  rw [Packet.read_ok _ (event_size - 14 - svl - sl) (by simp; omega)]
  simp only [pure, Except.pure]

/-- Witness for C5 on a concrete minimal query event (empty status
block, empty schema, empty query). -/
theorem query_event_layout_witness :
    QueryEvent.init 14 ⟨List.replicate 14 0, 0, 0⟩ =
      .ok (⟨leNat (byteSlice (List.replicate 14 0) 0 4),
            leNat (byteSlice (List.replicate 14 0) 4 4),
            0,
            leNat (byteSlice (List.replicate 14 0) 9 2),
            0,
            emptyVars,
            byteSlice (List.replicate 14 0) 13 0,
            decodeBackslash (byteSlice (List.replicate 14 0) 14 0)⟩,
          ⟨List.replicate 14 0, 14, 14⟩) :=
  query_event_layout 14 ⟨List.replicate 14 0, 0, 0⟩ 0 0
    ⟨List.replicate 14 0, 13, 13⟩ emptyVars
    (by decide) (by decide) (by decide)
    (status_vars_loop_exit 13 ⟨List.replicate 14 0, 13, 13⟩ emptyVars (by decide))
    (by decide) (by decide) (by decide)

/-- The `compressed_bytes` table of `_parse_decimal_from_bytes`:
byte width of a partial base-10^9 digit group of 0..9 digits. -/
def compressed_bytes : List Nat := [0, 1, 1, 2, 2, 3, 3, 4, 4, 4]

/-- Python `(b ^ mask) & 0xFF` for the masks `-1` and `0` used by the
decimal codec (`x ^ -1 = -x - 1`, and `& 0xFF` of an integer is its
value modulo 256 in two's complement). -/
def pyXorByte (b : Nat) (mask : Int) : Nat :=
  if mask = -1 then 255 - b % 256 else b % 256

/-- Python `v ^ mask` on ints for the masks `-1` and `0`
(`v ^ -1 = -v - 1`, the bitwise complement). -/
def pyXorInt (v mask : Int) : Int := if mask = -1 then -v - 1 else v

/-- `"%0*d" % (n, v)` for a non-negative count: left-pad with zeros
to width `n`. -/
def padZeros (n : Nat) (s : String) : String :=
  String.mk (List.replicate (n - s.length) '0') ++ s

/-- `"%09d" % v`: zero-pad to total width 9, sign included. -/
def fmt09 (v : Int) : String :=
  if v < 0 then "-" ++ padZeros 8 (toString v.natAbs) else padZeros 9 (toString v.natAbs)

/-- `decode_decimal_decompress_value(comp_indx, data, mask)` of
`UserVarEvent._parse_decimal_from_bytes`: a partial digit group of
`compressed_bytes[comp_indx]` bytes, each byte XOR-masked, decoded
big-endian; width 0 yields `(0, 0)`.  Indexing `data[i]` for
`i < compressed_bytes[comp_indx]` beyond the buffer is Python's
IndexError. -/
def decode_decimal_decompress_value (comp_indx : Nat) (data : List Nat) (mask : Int) :
    Except PyErr (Nat × Nat) :=
  if compressed_bytes.getD comp_indx 0 > 0 then
    if data.length < compressed_bytes.getD comp_indx 0 then .error .indexError
    else
      .ok (compressed_bytes.getD comp_indx 0,
           beNat ((data.take (compressed_bytes.getD comp_indx 0)).map
             (fun b => pyXorByte b mask)))
  else .ok (0, 0)

/-- The `for _ in range(count)` loop over full 9-digit groups of
`_parse_decimal_from_bytes`: each group is 4 bytes unpacked as a
big-endian signed 32-bit integer (`struct.unpack(">i", _)`), XORed
with the sign mask, formatted `"%09d"`; the pointer advances 4 per
group. -/
def readFullGroups (count : Nat) (raw : List Nat) (ptr : Nat) (mask : Int) :
    Except PyErr (String × Nat) :=
  match count with
  | 0 => .ok ("", ptr)
  | n + 1 =>
    if (byteSlice raw ptr 4).length = 4 then
      match readFullGroups n raw (ptr + 4) mask with
      | .error e => .error e
      | .ok (s, ptr2) =>
        .ok (fmt09 (pyXorInt (toSigned32 (beNat (byteSlice raw ptr 4))) mask) ++ s,
             ptr2)
    else .error .structError

/-- The body of `UserVarEvent._parse_decimal_from_bytes` after sign
normalization: `raw` is the buffer with its first byte already XORed
with 0x80, `neg` the sign flag (`mask = -1` when negative). -/
def parseDecimalCore (raw : List Nat) (neg : Bool) (precision decimals : Nat) :
    Except PyErr String :=
  match decode_decimal_decompress_value ((precision - decimals) % 9) raw
      (if neg then -1 else 0) with
  | .error e => .error e
  | .ok (pointer, value) =>
    match readFullGroups ((precision - decimals) / 9) raw pointer
        (if neg then -1 else 0) with
    | .error e => .error e
    | .ok (ints, pointer2) =>
      match readFullGroups (decimals / 9) raw pointer2 (if neg then -1 else 0) with
      | .error e => .error e
      | .ok (fracs, pointer3) =>
        match decode_decimal_decompress_value (decimals % 9) (raw.drop pointer3)
            (if neg then -1 else 0) with
        | .error e => .error e
        | .ok (size, fval) =>
          .ok ((if neg then "-" else "") ++ toString value ++ ints ++ "." ++ fracs ++
               (if size > 0 then padZeros (decimals % 9) (toString fval) else ""))

/-- `UserVarEvent._parse_decimal_from_bytes` (producing the decimal
string handed to `decimal.Decimal`): the first byte's high bit clear
means negative; the first byte is XORed with 0x80; precision − scale
and scale are split by divmod 9 into full and partial groups; group
bytes are decoded with the sign mask as in the helpers above. -/
def UserVarEvent.parse_decimal_from_bytes (raw_decimal : List Nat)
    (precision decimals : Nat) : Except PyErr String :=
  match raw_decimal with
  | [] => .error .indexError
  | b0 :: rest =>
    parseDecimalCore ((b0 ^^^ 0x80) :: rest) (decide (b0 &&& 0x80 = 0))
      precision decimals

/-- Full 9-digit groups of the reference algorithm of C3: the bytes
were already complemented for negative values, so each group is just
the big-endian signed decode of 4 bytes, zero-padded to 9 digits. -/
def referenceDecimalGroups : Nat → List Nat → String
  | 0, _ => ""
  | n + 1, l =>
    fmt09 (toSigned32 (beNat (l.take 4))) ++ referenceDecimalGroups n (l.drop 4)

/-- The reference algorithm of C3, written from the claim: negative
iff the first byte's high bit is clear; first byte XORed with 0x80;
for negative values every byte then XORed with 0xFF; the leading
partial group of `compressed_bytes[(p−s) % 9]` bytes big-endian, the
full integral groups, a dot, the full fractional groups, and the
trailing partial group of `compressed_bytes[s % 9]` bytes padded to
`s % 9` digits. -/
def referenceDecimalString (raw : List Nat) (precision decimals : Nat) : String :=
  match raw with
  | [] => ""
  | b0 :: rest =>
    (if b0 &&& 0x80 = 0 then "-" else "") ++
      toString (beNat (((if b0 &&& 0x80 = 0 then
          (((b0 ^^^ 0x80) :: rest).map (fun b => b ^^^ 255))
        else ((b0 ^^^ 0x80) :: rest))).take
          (compressed_bytes.getD ((precision - decimals) % 9) 0))) ++
      referenceDecimalGroups ((precision - decimals) / 9)
        ((if b0 &&& 0x80 = 0 then
          (((b0 ^^^ 0x80) :: rest).map (fun b => b ^^^ 255))
        else ((b0 ^^^ 0x80) :: rest)).drop
          (compressed_bytes.getD ((precision - decimals) % 9) 0)) ++ "." ++
      referenceDecimalGroups (decimals / 9)
        ((if b0 &&& 0x80 = 0 then
          (((b0 ^^^ 0x80) :: rest).map (fun b => b ^^^ 255))
        else ((b0 ^^^ 0x80) :: rest)).drop
          (compressed_bytes.getD ((precision - decimals) % 9) 0 +
            4 * ((precision - decimals) / 9))) ++
      (if compressed_bytes.getD (decimals % 9) 0 > 0 then
        padZeros (decimals % 9) (toString (beNat
          (((if b0 &&& 0x80 = 0 then
              (((b0 ^^^ 0x80) :: rest).map (fun b => b ^^^ 255))
            else ((b0 ^^^ 0x80) :: rest)).drop
              (compressed_bytes.getD ((precision - decimals) % 9) 0 +
                4 * ((precision - decimals) / 9) + 4 * (decimals / 9))).take
            (compressed_bytes.getD (decimals % 9) 0))))
      else "")

theorem xor255_eq_sub {b : Nat} (h : b < 256) : b ^^^ 255 = 255 - b := by
  have H : ∀ x < 256, x ^^^ 255 = 255 - x := by decide
  exact H b h

theorem xor128_lt {b : Nat} (h : b < 256) : b ^^^ 128 < 256 := by
  have H : ∀ x < 256, x ^^^ 128 < 256 := by decide
  exact H b h

theorem pyXorByte_neg {b : Nat} (h : b < 256) : pyXorByte b (-1) = b ^^^ 255 := by
  unfold pyXorByte
  rw [if_pos rfl, Nat.mod_eq_of_lt h, xor255_eq_sub h]

theorem pyXorByte_zero {b : Nat} (h : b < 256) : pyXorByte b 0 = b := by
  unfold pyXorByte
  rw [if_neg (by decide), Nat.mod_eq_of_lt h]

theorem beNat_four (a b c d : Nat) :
    beNat [a, b, c, d] = ((a * 256 + b) * 256 + c) * 256 + d := by
  simp [beNat]

theorem signed_complement (a b c d : Nat)
    (ha : a < 256) (hb : b < 256) (hc : c < 256) (hd : d < 256) :
    pyXorInt (toSigned32 (beNat [a, b, c, d])) (-1) =
      toSigned32 (beNat [a ^^^ 255, b ^^^ 255, c ^^^ 255, d ^^^ 255]) := by
  rw [xor255_eq_sub ha, xor255_eq_sub hb, xor255_eq_sub hc, xor255_eq_sub hd]
  rw [beNat_four, beNat_four]
  unfold pyXorInt toSigned32
  rw [if_pos rfl]
  have h1 : ((a * 256 + b) * 256 + c) * 256 + d < 4294967296 := by omega
  have h2 : (((255 - a) * 256 + (255 - b)) * 256 + (255 - c)) * 256 + (255 - d) =
      4294967295 - (((a * 256 + b) * 256 + c) * 256 + d) := by omega
  rw [h2]
  by_cases hU : ((a * 256 + b) * 256 + c) * 256 + d < 2 ^ 31
  · rw [if_pos hU, if_neg (by omega)]
    omega
  · rw [if_neg hU, if_pos (by omega)]
    omega

theorem exists_four (l : List Nat) (h : 4 ≤ l.length) :
    ∃ a b c d t, l = a :: b :: c :: d :: t := by
  rcases l with _ | ⟨a, l⟩
  · simp at h
  rcases l with _ | ⟨b, l⟩
  · simp at h
  rcases l with _ | ⟨c, l⟩
  · simp at h
  rcases l with _ | ⟨d, l⟩
  · simp at h
  exact ⟨a, b, c, d, l, rfl⟩

theorem decompress_spec (neg : Bool) (ci : Nat) (data : List Nat)
    (hb : ∀ b ∈ data, b < 256)
    (hlen : compressed_bytes.getD ci 0 ≤ data.length) :
    decode_decimal_decompress_value ci data (if neg then -1 else 0) =
      .ok (compressed_bytes.getD ci 0,
           beNat ((if neg then data.map (fun b => b ^^^ 255) else data).take
             (compressed_bytes.getD ci 0))) := by
  unfold decode_decimal_decompress_value
  by_cases hsz : compressed_bytes.getD ci 0 > 0
  · rw [if_pos hsz, if_neg (by omega)]
    cases neg with
    | false =>
      simp only [Bool.false_eq_true, if_false]
      have he : ∀ x ∈ data.take (compressed_bytes.getD ci 0), pyXorByte x 0 = x :=
        fun x hx => pyXorByte_zero (hb x (List.mem_of_mem_take hx))
      rw [List.map_congr_left he]
      simp
    | true =>
      simp only [if_true]
      have he : ∀ x ∈ data.take (compressed_bytes.getD ci 0),
          pyXorByte x (-1) = x ^^^ 255 :=
        fun x hx => pyXorByte_neg (hb x (List.mem_of_mem_take hx))
      rw [List.map_congr_left he, List.map_take]
  · rw [if_neg hsz]
    have h0 : compressed_bytes.getD ci 0 = 0 := by omega
    rw [h0]
    simp [beNat]

theorem readFullGroups_spec (neg : Bool) :
    ∀ (n : Nat) (raw : List Nat) (ptr : Nat),
      (∀ b ∈ raw, b < 256) → ptr + 4 * n ≤ raw.length →
      readFullGroups n raw ptr (if neg then -1 else 0) =
        .ok (referenceDecimalGroups n
              ((if neg then raw.map (fun b => b ^^^ 255) else raw).drop ptr),
             ptr + 4 * n) := by
  intro n
  induction n with
  | zero =>
    intro raw ptr hb hlen
    simp [readFullGroups, referenceDecimalGroups]
  | succ n ih =>
    intro raw ptr hb hlen
    unfold readFullGroups
    have hl4 : (byteSlice raw ptr 4).length = 4 := by
      simp [byteSlice, List.length_take, List.length_drop]
      omega
    rw [if_pos hl4]
    rw [ih raw (ptr + 4) hb (by omega)]
    simp only
    have h4 : 4 ≤ (raw.drop ptr).length := by
      simp [List.length_drop]
      omega
    obtain ⟨a, b, c, d, t, hdrop⟩ := exists_four (raw.drop ptr) h4
    have hmem : ∀ x ∈ raw.drop ptr, x < 256 :=
      fun x hx => hb x (List.mem_of_mem_drop hx)
    have hsl : byteSlice raw ptr 4 = [a, b, c, d] := by
      simp [byteSlice, hdrop]
    have hgroup :
        fmt09 (pyXorInt (toSigned32 (beNat (byteSlice raw ptr 4)))
            (if neg then -1 else 0)) =
          fmt09 (toSigned32 (beNat
            (((if neg then raw.map (fun x => x ^^^ 255) else raw).drop ptr).take 4))) := by
      cases neg with
      | false =>
        simp only [Bool.false_eq_true, if_false]
        rw [hsl]
        unfold pyXorInt
        rw [if_neg (by decide)]
        rw [show (raw.drop ptr).take 4 = [a, b, c, d] by simp [hdrop]]
      | true =>
        simp only [if_true]
        rw [hsl]
        rw [← List.map_drop, hdrop]
        rw [show ((a :: b :: c :: d :: t).map (fun x => x ^^^ 255)).take 4 =
          [a ^^^ 255, b ^^^ 255, c ^^^ 255, d ^^^ 255] from by simp]
        exact congrArg fmt09 (signed_complement a b c d
          (hmem a (by rw [hdrop]; simp)) (hmem b (by rw [hdrop]; simp))
          (hmem c (by rw [hdrop]; simp)) (hmem d (by rw [hdrop]; simp)))
    rw [show referenceDecimalGroups (n + 1)
          ((if neg then raw.map (fun x => x ^^^ 255) else raw).drop ptr) =
        fmt09 (toSigned32 (beNat
          (((if neg then raw.map (fun x => x ^^^ 255) else raw).drop ptr).take 4))) ++
          referenceDecimalGroups n
            ((((if neg then raw.map (fun x => x ^^^ 255) else raw)).drop ptr).drop 4)
      from rfl]
    rw [List.drop_drop]
    rw [hgroup]
    rw [show ptr + 4 + 4 * n = ptr + 4 * (n + 1) from by omega]

/-- C3. The packed-decimal parser of `UserVarEvent` produces, on every
byte buffer consistent with the (precision, scale) layout, exactly the
string of the reference algorithm: sign from the cleared high bit,
first byte XORed with 0x80, all bytes XORed with 0xFF when negative,
leading partial group per the `compressed_bytes` table big-endian,
4-byte big-endian signed full groups zero-padded to 9 digits, a dot,
and the fractional groups analogously. -/
theorem user_var_decimal_matches_reference (raw : List Nat) (precision decimals : Nat)
    (hb : ∀ b ∈ raw, b < 256)
    (hsd : decimals ≤ precision)
    (hlen : raw.length = 1 + compressed_bytes.getD ((precision - decimals) % 9) 0 +
        4 * ((precision - decimals) / 9) + 4 * (decimals / 9) +
        compressed_bytes.getD (decimals % 9) 0) :
    UserVarEvent.parse_decimal_from_bytes raw precision decimals =
      .ok (referenceDecimalString raw precision decimals) := by
  rcases raw with _ | ⟨b0, rest⟩
  · simp at hlen
    omega
  have hb0 : b0 < 256 := hb b0 (by simp)
  have hbody : ∀ x ∈ (b0 ^^^ 128) :: rest, x < 256 := by
    intro x hx
    rcases List.mem_cons.mp hx with h | h
    · subst h; exact xor128_lt hb0
    · exact hb x (by simp [h])
  have hblen : ((b0 ^^^ 128) :: rest).length =
      1 + compressed_bytes.getD ((precision - decimals) % 9) 0 +
        4 * ((precision - decimals) / 9) + 4 * (decimals / 9) +
        compressed_bytes.getD (decimals % 9) 0 := by
    simp only [List.length_cons] at hlen ⊢
    omega
  have hbdrop : ∀ x ∈ ((b0 ^^^ 128) :: rest).drop
      (compressed_bytes.getD ((precision - decimals) % 9) 0 +
        4 * ((precision - decimals) / 9) + 4 * (decimals / 9)), x < 256 :=
    fun x hx => hbody x (List.mem_of_mem_drop hx)
  have hdroplen : compressed_bytes.getD (decimals % 9) 0 ≤
      (((b0 ^^^ 128) :: rest).drop
        (compressed_bytes.getD ((precision - decimals) % 9) 0 +
          4 * ((precision - decimals) / 9) + 4 * (decimals / 9))).length := by
    rw [List.length_drop, hblen]
    omega
  unfold UserVarEvent.parse_decimal_from_bytes
  simp only
  unfold parseDecimalCore
  by_cases hneg : b0 &&& 128 = 0
  · rw [show (decide (b0 &&& 128 = 0)) = true from by simp [hneg]]
    simp only [if_true]
    have hD1 := decompress_spec true ((precision - decimals) % 9)
      ((b0 ^^^ 128) :: rest) hbody (by rw [hblen]; omega)
    have hG1 := readFullGroups_spec true ((precision - decimals) / 9)
      ((b0 ^^^ 128) :: rest)
      (compressed_bytes.getD ((precision - decimals) % 9) 0)
      hbody (by rw [hblen]; omega)
    have hG2 := readFullGroups_spec true (decimals / 9) ((b0 ^^^ 128) :: rest)
      (compressed_bytes.getD ((precision - decimals) % 9) 0 +
        4 * ((precision - decimals) / 9))
      hbody (by rw [hblen]; omega)
    have hD2 := decompress_spec true (decimals % 9)
      (((b0 ^^^ 128) :: rest).drop
        (compressed_bytes.getD ((precision - decimals) % 9) 0 +
          4 * ((precision - decimals) / 9) + 4 * (decimals / 9)))
      hbdrop hdroplen
    simp only [if_true] at hD1 hG1 hG2 hD2
    rw [hD1]
    simp only
    rw [hG1]
    simp only
    rw [hG2]
    simp only
    rw [hD2]
    simp only
    rw [List.map_drop]
    simp only [referenceDecimalString, hneg, eq_self_iff_true, if_true]
  · rw [show (decide (b0 &&& 128 = 0)) = false from by simp [hneg]]
    simp only [Bool.false_eq_true, if_false]
    have hD1 := decompress_spec false ((precision - decimals) % 9)
      ((b0 ^^^ 128) :: rest) hbody (by rw [hblen]; omega)
    have hG1 := readFullGroups_spec false ((precision - decimals) / 9)
      ((b0 ^^^ 128) :: rest)
      (compressed_bytes.getD ((precision - decimals) % 9) 0)
      hbody (by rw [hblen]; omega)
    have hG2 := readFullGroups_spec false (decimals / 9) ((b0 ^^^ 128) :: rest)
      (compressed_bytes.getD ((precision - decimals) % 9) 0 +
        4 * ((precision - decimals) / 9))
      hbody (by rw [hblen]; omega)
    have hD2 := decompress_spec false (decimals % 9)
      (((b0 ^^^ 128) :: rest).drop
        (compressed_bytes.getD ((precision - decimals) % 9) 0 +
          4 * ((precision - decimals) / 9) + 4 * (decimals / 9)))
      hbdrop hdroplen
    simp only [Bool.false_eq_true, if_false] at hD1 hG1 hG2 hD2
    rw [hD1]
    simp only
    rw [hG1]
    simp only
    rw [hG2]
    simp only
    rw [hD2]
    simp only
    simp only [referenceDecimalString, hneg, if_false]

/-- Witness for C3 on a concrete positive 6-byte buffer with
precision 10 and scale 2. -/
theorem user_var_decimal_matches_reference_witness :
    UserVarEvent.parse_decimal_from_bytes [128, 0, 0, 0, 1, 2] 10 2 =
      .ok (referenceDecimalString [128, 0, 0, 0, 1, 2] 10 2) :=
  user_var_decimal_matches_reference [128, 0, 0, 0, 1, 2] 10 2
    (by decide) (by decide) (by decide)

/-- The typed value of a user variable: tagged by the one-byte result
code of the event. -/
inductive UVValue where
  | str (s : String)
  | real (bits : Nat)
  | int (i : Int)
  | dec (s : String)
deriving Repr, DecidableEq

/-- `UserVarEvent._read_real`: `struct.unpack("<d", buffer)[0]` —
modelled as the 8-byte little-endian IEEE-754 bit pattern (the float
value itself is not interpreted by any claim); `struct.error` unless
the buffer is exactly 8 bytes. -/
def UserVarEvent.read_real (buffer : List Nat) : Except PyErr Nat :=
  if buffer.length = 8 then .ok (leNat buffer) else .error .structError

/-- `UserVarEvent._read_int`: `fmt = "<Q" if flags == 1 else "<q"` —
unsigned exactly when the flags byte equals 1, signed otherwise;
`struct.error` unless the buffer is exactly 8 bytes. -/
def UserVarEvent.read_int (buffer : List Nat) (flags : Nat) : Except PyErr Int :=
  if buffer.length = 8 then
    if flags = 1 then .ok (Int.ofNat (leNat buffer))
    else .ok (toSigned64 (leNat buffer))
  else .error .structError

/-- `UserVarEvent._read_decimal`: first byte is the precision, second
the scale, the remainder goes to `_parse_decimal_from_bytes`; fewer
than two bytes is Python's IndexError. -/
def UserVarEvent.read_decimal (buffer : List Nat) : Except PyErr String :=
  match buffer with
  | prec :: scale :: rawd => UserVarEvent.parse_decimal_from_bytes rawd prec scale
  | _ => .error .indexError

/-- `UserVarEvent._set_value_from_temp_buffer`: an empty buffer is
falsy, so the value stays `None`; otherwise dispatch on the type code.
The codes 0x03 (`ROW_RESULT`) and every code outside the table both
map to `self._read_default`, a method whose signature takes no
positional argument — the call `read_method(self.temp_value_buffer)`
therefore raises `TypeError` at run time, modelled as
`.error .typeError`. -/
def UserVarEvent.set_value_from_temp_buffer (type : Nat) (buf : List Nat) (flags : Nat) :
    Except PyErr (Option UVValue) :=
  if buf = [] then .ok none
  else if type = 0x00 then
    match strictUtf8Decode buf with
    | .ok s => .ok (some (.str s))
    | .error e => .error e
  else if type = 0x01 then
    match UserVarEvent.read_real buf with
    | .ok bits => .ok (some (.real bits))
    | .error e => .error e
  else if type = 0x02 then
    match UserVarEvent.read_int buf flags with
    | .ok i => .ok (some (.int i))
    | .error e => .error e
  else if type = 0x04 then
    match UserVarEvent.read_decimal buf with
    | .ok s => .ok (some (.dec s))
    | .error e => .error e
  else .error .typeError

/-- Result of `UserVarEvent.__init__` (typed fields only present when
the null flag byte is zero). -/
structure UserVarEvent where
  name_len : Nat
  name : String
  is_null : Nat
  type : Option Nat
  charset : Option Nat
  value_len : Option Nat
  value : Option UVValue
  flags : Option Nat
deriving Repr, DecidableEq

/-- Body decode of `UserVarEvent.__init__`: u32 name length, name
bytes (strictly decoded), u8 null flag; when the flag is zero, u8
type, u32 charset, u32 value length, the raw value buffer, u8 flags,
then the typed value from the buffer; when the flag is nonzero, all
typed fields are `None` and nothing further is read. -/
def UserVarEvent.init (p : Packet) : Except PyErr (UserVarEvent × Packet) := do
  let (name_len, p) ← p.read_uint32
  let (nameB, p) ← p.read name_len
  let name ← strictUtf8Decode nameB
  let (is_null, p) ← p.read_uint8
  if is_null = 0 then do
    let (type, p) ← p.read_uint8
    let (charset, p) ← p.read_uint32
    let (value_len, p) ← p.read_uint32
    let (buf, p) ← p.read value_len
    let (flags, p) ← p.read_uint8
    let value ← UserVarEvent.set_value_from_temp_buffer type buf flags
    pure (⟨name_len, name, is_null, some type, some charset, some value_len,
           value, some flags⟩, p)
  else
    pure (⟨name_len, name, is_null, none, none, none, none, none⟩, p)

/-- C6 (code evaluated at the failing input). A non-null user
variable whose type code is 0x03 (row-result), or any code outside
the known set, does not store its raw bytes: the dispatch passes the
value buffer to `_read_default`, whose signature accepts no
positional argument, so the decode raises `TypeError` instead of
succeeding. -/
theorem user_var_row_result_raises :
    UserVarEvent.init
        ⟨[1, 0, 0, 0, 97, 0, 3, 0, 0, 0, 0, 1, 0, 0, 0, 170, 0], 0, 0⟩ =
      .error .typeError ∧
    UserVarEvent.init
        ⟨[1, 0, 0, 0, 97, 0, 9, 0, 0, 0, 0, 1, 0, 0, 0, 170, 0], 0, 0⟩ =
      .error .typeError :=
  ⟨rfl, rfl⟩

/-- C7. A nonzero null-flag byte ends the user-variable decode right
after the flag: the final cursor sits one byte past the flag, and
type, charset, value length, value and flags are all absent. -/
theorem user_var_null_flag (p : Packet) (nl : Nat) (s : String)
    (hnl : leNat (byteSlice p.data p.pos 4) = nl)
    (hlen : p.pos + 4 + nl + 1 ≤ p.data.length)
    (hname : strictUtf8Decode (byteSlice p.data (p.pos + 4) nl) = .ok s)
    (hflag : byteAt p.data (p.pos + 4 + nl) ≠ 0) :
    UserVarEvent.init p =
      .ok (⟨nl, s, byteAt p.data (p.pos + 4 + nl), none, none, none, none, none⟩,
           { p with pos := p.pos + 4 + nl + 1,
                    read_bytes := p.read_bytes + 4 + nl + 1 }) := by
  unfold UserVarEvent.init
  rw [read_uint32_at p (by omega)]
  simp only [bind, Except.bind]
  rw [hnl]
  rw [Packet.read_ok _ nl (by simp; omega)]
  simp only
  rw [hname]
  simp only
  rw [read_uint8_at _ (by simp; omega)]
  simp only
  rw [if_neg hflag]
  simp only [pure, Except.pure]

/-- Witness for C7 on a concrete body with empty name and null flag 1. -/
theorem user_var_null_flag_witness :
    UserVarEvent.init ⟨[0, 0, 0, 0, 1], 0, 0⟩ =
      .ok (⟨0, "", byteAt [0, 0, 0, 0, 1] 4, none, none, none, none, none⟩,
           ⟨[0, 0, 0, 0, 1], 5, 5⟩) :=
  user_var_null_flag ⟨[0, 0, 0, 0, 1], 0, 0⟩ 0 ""
    (by decide) (by decide) (by rfl) (by decide)

theorem leNat_lt (bs : List Nat) (hb : ∀ b ∈ bs, b < 256) :
    leNat bs < 256 ^ bs.length := by
  induction bs with
  | nil => simp [leNat]
  | cons b t ih =>
    have hbb : b < 256 := hb b (by simp)
    have ht : leNat t < 256 ^ t.length := ih (fun x hx => hb x (by simp [hx]))
    show b + 256 * leNat t < 256 ^ (b :: t).length
    calc b + 256 * leNat t < 256 * (leNat t + 1) := by omega
      _ ≤ 256 * 256 ^ t.length := Nat.mul_le_mul_left 256 ht
      _ = 256 ^ (b :: t).length := by rw [List.length_cons]; ring

/-- C8 (counterexample). The claim says a flags byte with bit 0 set is
decoded unsigned; for flags = 3 (bit 0 set) the code takes the signed
branch and returns −1 for the all-ones buffer instead of the unsigned
value 2^64 − 1. -/
theorem user_var_int_flags_counterexample :
    UserVarEvent.read_int (List.replicate 8 255) 3 = .ok (-1) ∧
      ((-1 : Int) ≠ 18446744073709551615) :=
  ⟨by rfl, by decide⟩

/-- C8 (amended). The 8-byte little-endian integer value is decoded
unsigned exactly when the flags byte equals 1 — not whenever bit 0 is
set — and signed otherwise: for flags = 1 the result is the exact
little-endian value, for any other flags it is the signed
reinterpretation, congruent to that value modulo 2^64 and lying in
[−2^63, 2^63). -/
theorem user_var_int_decode (buffer : List Nat) (flags : Nat)
    (hlen : buffer.length = 8) (hb : ∀ b ∈ buffer, b < 256) :
    (flags = 1 → UserVarEvent.read_int buffer flags = .ok (leNat buffer)) ∧
    (flags ≠ 1 → ∃ v : Int, UserVarEvent.read_int buffer flags = .ok v ∧
      v % 2 ^ 64 = (leNat buffer : Int) ∧ -(2 ^ 63) ≤ v ∧ v < 2 ^ 63) := by
  have hu : leNat buffer < 2 ^ 64 := by
    have h1 := leNat_lt buffer hb
    rw [hlen] at h1
    exact lt_of_lt_of_eq h1 (by norm_num)
  constructor
  · intro h1
    unfold UserVarEvent.read_int
    rw [if_pos hlen, if_pos h1]
    rfl
  · intro h1
    unfold UserVarEvent.read_int
    rw [if_pos hlen, if_neg h1]
    refine ⟨toSigned64 (leNat buffer), rfl, ?_, ?_, ?_⟩ <;>
      · unfold toSigned64
        norm_num at hu ⊢
        split <;> omega

/-- Witness for the amended C8 at flags = 0 on the all-ones buffer. -/
theorem user_var_int_decode_witness :
    ∃ v : Int, UserVarEvent.read_int (List.replicate 8 255) 0 = .ok v ∧
      v % 2 ^ 64 = (leNat (List.replicate 8 255) : Int) ∧
      -(2 ^ 63) ≤ v ∧ v < 2 ^ 63 :=
  (user_var_int_decode (List.replicate 8 255) 0 (by decide) (by decide)).2
    (by decide)
